import Mathlib

/-!
Verification of `amlb/results.py` (automlbenchmark results module).

This file gives a shallow embedding, in Lean 4, of the scoring / scoreboard
logic of `amlb/results.py`: the `Scoreboard` ledger (file naming, loading,
saving, appending with deduplication, presentation formatting), the
`TaskResult` orchestration (`load_predictions`, `load_metadata`,
`compute_scores`, `score_from_predictions_file`) and the polymorphic
`Result` model (`NoResult`, `ErrorResult`, `ClassificationResult`,
`RegressionResult`) with its `evaluate` dispatch.

Conventions of the embedding:
* Python strings are embedded as `List Char` (named `Chs` here); regular
  expressions of the source are embedded as explicit backtracking matchers
  whose search order reproduces the greedy/lazy semantics of the original
  pattern.
* Python floats are idealised as rationals; the float `nan` and Python
  `None` are distinct constructors of the cell/value types.
* Code that can raise is embedded in `Except String`, the error string
  standing for the exception.
* Collaborator code that is part of the repository but not part of
  `results.py` (`amlb.utils.Namespace`, `cached`, `backup_file`,
  `read_csv`/`write_csv`, the config service) is modelled from the spec;
  each such definition carries a comment saying so.
-/

namespace AmlbResults

/-- Characters, the embedding of Python strings used by the matchers. -/
abbrev Chs := List Char

/-- The regex class `[\w\-]` of the source patterns (ASCII reading of
`\w`): letters, digits, underscore, plus the hyphen. -/
def wordChar (c : Char) : Bool :=
  c.isAlphanum || c = '_' || c = '-'

/-- A character of a plain scope name: letter, digit or hyphen (no
underscore, no dot). -/
def simpleChar (c : Char) : Bool :=
  c.isAlphanum || c = '-'

/-- A plain framework/benchmark/task name: nonempty, over
letters/digits/hyphens. -/
def simpleName (s : Chs) : Bool :=
  !s.isEmpty && s.all simpleChar

/-- The regex class `\d`. -/
def digitChar (c : Char) : Bool :=
  c.isDigit

/-- A nonempty `[\w\-]+` token. -/
def wordTok (s : Chs) : Bool :=
  !s.isEmpty && s.all wordChar

/-!
## `Scoreboard.save_df` (results.py lines 87-105)

`save_df` reads the header of an existing target file, detects a format
change, backs the old file up when needed, and writes with or without a
header.  The file system interaction is abstracted into the inputs
(`fileDoesExist`, `existingHeader`) and the effect record below;
`backup_file` is modelled from the spec ("back up the existing file
(rename/copy aside)") as the boolean effect `backedUp`.
-/

/-- Effect of one `Scoreboard.save_df` call on the target file. -/
structure SaveDfEffect where
  /-- `backup_file(path)` was invoked on the pre-existing file. -/
  backedUp : Bool
  /-- the csv was written with a fresh header (`header=new_file`). -/
  wroteHeader : Bool
  /-- the csv was written in append mode (`append=not new_file`). -/
  appendedRows : Bool
deriving DecidableEq, Repr

/-- Embedding of `Scoreboard.save_df` (lines 89-105): `new_format` compares
the existing file's header with the columns about to be written; a backup
happens on a format change or on an overwrite of an existing file; the
write uses a fresh header unless the file exists, append was requested and
the header matches. -/
def save_df (fileDoesExist : Bool) (existingHeader newHeader : List String)
    (append : Bool) : SaveDfEffect :=
  let new_format := fileDoesExist && !(decide (existingHeader = newHeader))
  let backup := new_format || (fileDoesExist && !append)
  let new_file := !fileDoesExist || !append || new_format
  { backedUp := backup, wroteHeader := new_file, appendedRows := !new_file }

/-!
## The in-memory score table (pandas `DataFrame` fragment)

`Scoreboard` holds its records in a pandas frame.  The embedding keeps a
frame as a list of column labels plus row-major cells.  A cell is a Python
`None`, a float `nan`, a number (idealised as a rational) or a string.
-/

/-- Greatest common divisor with explicit fuel (the recursion shrinks
the second argument, so `b + 1` steps always suffice); kept first-order
so that concrete tables evaluate inside the kernel. -/
def gcdFuel : ℕ → ℕ → ℕ → ℕ
  | 0, a, _ => a
  | fuel + 1, a, b => if b = 0 then a else gcdFuel fuel b (a % b)

/-- `gcd`. -/
def pgcd (a b : ℕ) : ℕ := gcdFuel (b + 1) a b

/-- An exact rational: the idealisation of a Python float.  Values built
through `PyNum.norm` and the arithmetic below are kept in lowest terms
with a positive denominator, so structural equality is value
equality. -/
structure PyNum where
  n : Int
  d : Nat
deriving DecidableEq, Repr

/-- Normalised rational `n / d` (`d = 0` never arises from the embedded
code). -/
def PyNum.norm (n : Int) (d : Nat) : PyNum :=
  if d = 0 then ⟨0, 1⟩
  else
    let g := pgcd n.natAbs d
    if g = 0 then ⟨0, 1⟩ else ⟨n.tdiv g, d / g⟩

/-- Embed an integer. -/
def PyNum.ofInt (i : Int) : PyNum := ⟨i, 1⟩

/-- Multiplication. -/
def PyNum.mul (a b : PyNum) : PyNum := PyNum.norm (a.n * b.n) (a.d * b.d)

/-- Division (division by zero never arises from the embedded code). -/
def PyNum.div (a b : PyNum) : PyNum :=
  if b.n = 0 then ⟨0, 1⟩
  else PyNum.norm (a.n * b.d * (if b.n < 0 then -1 else 1)) (a.d * b.n.natAbs)

/-- `⌊q⌋`. -/
def PyNum.floorI (q : PyNum) : Int := Int.fdiv q.n q.d

/-- Python `int(...)`: truncation toward zero. -/
def PyNum.truncI (q : PyNum) : Int := Int.tdiv q.n q.d

/-- `a ≤ b` (denominators are positive). -/
def PyNum.leB (a b : PyNum) : Bool := a.n * b.d ≤ b.n * a.d

/-- `|q|`. -/
def PyNum.abs (q : PyNum) : PyNum := ⟨(q.n.natAbs : Int), q.d⟩

/-- `10 ^ k` for an integer exponent. -/
def pow10Z (k : Int) : PyNum :=
  if 0 ≤ k then ⟨((10 : ℕ) ^ k.toNat : ℕ), 1⟩ else ⟨1, (10 : ℕ) ^ (-k).toNat⟩

/-- One cell of a score table. -/
inductive Cell where
  | none : Cell
  | nan : Cell
  | num : PyNum → Cell
  | str : String → Cell
deriving DecidableEq, Repr

/-- A pandas `DataFrame` restricted to what `results.py` uses: ordered
column labels and row-major cells (`rows` entries are aligned with
`cols`). -/
structure DF where
  cols : List String
  rows : List (List Cell)
deriving DecidableEq, Repr

/-- `df.empty` of pandas: some axis has length zero. -/
def DF.isEmptyFrame (df : DF) : Bool :=
  df.rows.isEmpty || df.cols.isEmpty

/-- The fixed leading columns of a score record
(`Scoreboard.as_data_frame`, lines 124-125). -/
def fixedCols : List String :=
  ["id", "task", "framework", "constraint", "fold", "result", "metric", "mode", "version",
   "params", "app_version", "utc", "duration", "training_duration", "predict_duration",
   "models_count", "seed", "info"]

/-- Insertion of a string into a `≤`-sorted list (helper for the
`dynamic_cols.sort()` of line 128). -/
def insSorted (a : String) : List String → List String
  | [] => [a]
  | b :: l => if a ≤ b then a :: b :: l else b :: insSorted a l

/-- Python's `list.sort()` on strings (stable, lexicographic). -/
def sortStrings : List String → List String
  | [] => []
  | a :: l => insSorted a (sortStrings l)

/-- Value of row `r` (laid out along `cols`) at column `c`; a column
absent from `cols` reads as `nan`, matching the NaN fill of
`df.reindex(columns=...)`. -/
def cellAt (cols : List String) (r : List Cell) (c : String) : Cell :=
  match cols.indexOf? c with
  | some i => r.getD i Cell.nan
  | none => Cell.nan

/-- Embedding of `Scoreboard.as_data_frame` (lines 115-131) without the
`@cached` wrapper: an empty frame is returned untouched; otherwise the
columns are reindexed to the fixed columns followed by the remaining
(dynamic) columns in sorted order, missing columns filling with NaN. -/
def as_data_frame (df : DF) : DF :=
  if df.isEmptyFrame then df
  else
    let dynamicCols := sortStrings (df.cols.filter (fun c => !fixedCols.contains c))
    let newCols := fixedCols ++ dynamicCols
    ⟨newCols, df.rows.map (fun r => newCols.map (cellAt df.cols r))⟩

/-- `pandas.DataFrame.append(other, sort=False)`: rows concatenated; on
identical column labels the alignment is the identity, otherwise the
column set is the union, `self`'s columns first, missing cells filling
with NaN. -/
def dfConcat (a b : DF) : DF :=
  if a.cols = b.cols then ⟨a.cols, a.rows ++ b.rows⟩
  else
    let newCols := a.cols ++ b.cols.filter (fun c => !a.cols.contains c)
    ⟨newCols,
      a.rows.map (fun r => newCols.map (cellAt a.cols r)) ++
        b.rows.map (fun r => newCols.map (cellAt b.cols r))⟩

/-- Boolean row membership (kept explicit so that concrete tables
evaluate). -/
def rowMem (r : List Cell) : List (List Cell) → Bool
  | [] => false
  | x :: l => decide (x = r) || rowMem r l

/-- The set of rows seen so far while scanning for duplicates. -/
def dedupSeen (seen : List (List Cell)) : List (List Cell) → List (List Cell)
  | [] => seen
  | r :: l => if rowMem r seen then dedupSeen seen l else dedupSeen (r :: seen) l

/-- Duplicate scan: keep a row the first time it appears, drop any later
occurrence. -/
def dedupKeepFirstAux (seen : List (List Cell)) : List (List Cell) → List (List Cell)
  | [] => []
  | r :: l =>
      if rowMem r seen then dedupKeepFirstAux seen l
      else r :: dedupKeepFirstAux (r :: seen) l

/-- `pandas.DataFrame.drop_duplicates()`: exact-duplicate rows removed,
first occurrence kept (pandas treats NaNs as equal here, as does `Cell`
equality). -/
def dedupKeepFirst (l : List (List Cell)) : List (List Cell) :=
  dedupKeepFirstAux [] l

/-- Embedding of `Scoreboard.append` (lines 160-169) at the level of the
stored tables: both operands pass through `as_data_frame`, the rows are
concatenated and, unless disabled, exact duplicates are dropped. -/
def scoreboardAppend (self other : DF) (no_duplicates : Bool) : DF :=
  let scores := dfConcat (as_data_frame self) (as_data_frame other)
  if no_duplicates then ⟨scores.cols, dedupKeepFirst scores.rows⟩ else scores

/-!
## Python values and `amlb.utils.Namespace`

`compute_scores` builds the score record in an `amlb.utils.Namespace`.
That class is part of the repository but not of `results.py`.  Modelled
from the spec: a namespace is an insertion-ordered mapping from string
keys to values; the metadata namespace produced for an absent side-file
(`Namespace(lambda: None)`, line 220) is "an all-unset metadata object" -
every field reads as `None` - and `'k' in ns` is key membership.
-/

/-- A Python value as stored in a score record / namespace. -/
inductive PVal where
  | none : PVal
  | nan : PVal
  | num : PyNum → PVal
  | str : String → PVal
  | strList : List String → PVal
deriving DecidableEq, Repr

/-- Python truthiness of a `PVal` (`None`, empty string and empty list are
falsy; `nan` is truthy). -/
def PVal.truthy : PVal → Bool
  | .none => false
  | .nan => true
  | .num q => decide (q.n ≠ 0)
  | .str s => !s.isEmpty
  | .strList l => !l.isEmpty

/-- Modelled from the spec: `amlb.utils.Namespace`, an insertion-ordered
string-keyed record. -/
structure NS where
  entries : List (String × PVal)
deriving DecidableEq, Repr

/-- First value bound to `k`; `None` when unbound. -/
def nsLookup (k : String) : List (String × PVal) → PVal
  | [] => PVal.none
  | (k', v) :: l => if k' = k then v else nsLookup k l

/-- Key membership test on the entry list. -/
def nsHasKeyL (k : String) : List (String × PVal) → Bool
  | [] => false
  | (k', _) :: l => k' = k || nsHasKeyL k l

/-- Attribute read; a missing key reads as `None` (the all-unset metadata
object of `load_metadata`, and `Namespace`'s default factory). -/
def NS.get (ns : NS) (k : String) : PVal :=
  nsLookup k ns.entries

/-- `'k' in ns`: key membership. -/
def NS.hasKey (ns : NS) (k : String) : Bool :=
  nsHasKeyL k ns.entries

/-- Attribute assignment: update in place if the key exists, else append
(insertion order preserved). -/
def nsSetEntries (k : String) (v : PVal) : List (String × PVal) → List (String × PVal)
  | [] => [(k, v)]
  | (k', v') :: l => if k' = k then (k, v) :: l else (k', v') :: nsSetEntries k v l

/-- `ns[k] = v` / `ns.k = v`. -/
def NS.set (ns : NS) (k : String) (v : PVal) : NS :=
  ⟨nsSetEntries k v ns.entries⟩

/-- Modelled from the spec: the `%` merge of `Namespace` used at line 400
adds the right-hand entries as additional fields, "with existing fields
never overwritten by the merge". -/
def NS.mergeKeepingExisting (ns : NS) (l : List (String × PVal)) : NS :=
  l.foldl (fun s kv => if s.hasKey kv.1 then s else ⟨s.entries ++ [kv]⟩) ns

/-!
## The `Result` model (results.py lines 413-529)

`Result.evaluate` dispatches on the metric name with
`hasattr`/`getattr`: a name bound to a method runs it (an exception is
caught and turned into a `scoring <m>: ...` message), a name bound to a
plain data attribute is called anyway, and the resulting `TypeError`
(`object is not callable`) takes the same caught path; an unbound name
yields the `Unsupported metric` message.  The numeric bodies of the
metric methods live in `amlb.datautils` (sklearn wrappers outside
`results.py`), so each method is embedded as its call outcome: a value,
or the raised exception's message.
-/

/-- Outcome of calling one metric method: a returned value or a raised
exception (its message). -/
abbrev MetricOutcome := Except String PVal

/-- What a (data or method) attribute of a `Result` object offers to
`evaluate`'s `getattr(self, metric)()` call. -/
inductive Attr where
  /-- a bound method together with its call outcome -/
  | method : MetricOutcome → Attr
  /-- a plain (non-callable) data attribute -/
  | field : Attr
deriving Repr

/-- `ClassificationResult` (lines 454-501): its per-instance data and the
outcomes of its metric methods. -/
structure ClassifData where
  info : Option String
  /-- `len(self.classes)`; the task type is binary iff it is 2 (line 461) -/
  nclasses : ℕ
  acc : MetricOutcome
  balacc : MetricOutcome
  auc : MetricOutcome
  cm : MetricOutcome
  mean_pce : MetricOutcome
  max_pce : MetricOutcome
  f1 : MetricOutcome
  logloss : MetricOutcome

/-- `RegressionResult` (lines 504-528). -/
structure RegData where
  info : Option String
  mae : MetricOutcome
  mse : MetricOutcome
  msle : MetricOutcome
  rmse : MetricOutcome
  rmsle : MetricOutcome
  r2 : MetricOutcome

/-- The polymorphic result record: `NoResult`, `ErrorResult` (its
specialisation, lines 445-451), `ClassificationResult`,
`RegressionResult`. -/
inductive ResultRecord where
  | noRes (info : Option String)
  | errRes (info : Option String)
  | classif (c : ClassifData)
  | regress (g : RegData)

/-- `str(self.type)` as used in the `Unsupported metric ... for ...`
message. -/
def ResultRecord.typeName : ResultRecord → String
  | .noRes _ => "None"
  | .errRes _ => "None"
  | .classif c => if c.nclasses = 2 then "DatasetType.binary" else "DatasetType.multiclass"
  | .regress _ => "DatasetType.regression"

/-- `self.info` of each variant. -/
def ResultRecord.info : ResultRecord → Option String
  | .noRes i => i
  | .errRes i => i
  | .classif c => c.info
  | .regress g => g.info

/-- The names of the plain data attributes set by `Result.__init__`
(lines 415-421) and, for classification, by
`ClassificationResult.__init__` (lines 456-464). -/
def baseFieldNames : List String :=
  ["df", "info", "truth", "predictions", "target", "type"]

/-- Attribute table of a `ClassificationResult` / `RegressionResult`
instance, as `getattr` sees it: the data attributes, then the metric
methods declared by the class (dunder and helper callables taking
arguments behave like any raising method and are not needed by the
claims). -/
def ResultRecord.attrs : ResultRecord → List (String × Attr)
  | .noRes _ => baseFieldNames.map (fun n => (n, Attr.field))
  | .errRes _ => baseFieldNames.map (fun n => (n, Attr.field))
  | .classif c =>
      (baseFieldNames ++ ["classes", "probabilities", "labels"]).map (fun n => (n, Attr.field)) ++
        [("acc", Attr.method c.acc), ("balacc", Attr.method c.balacc),
         ("auc", Attr.method c.auc), ("cm", Attr.method c.cm),
         ("mean_pce", Attr.method c.mean_pce), ("max_pce", Attr.method c.max_pce),
         ("f1", Attr.method c.f1), ("logloss", Attr.method c.logloss)]
  | .regress g =>
      baseFieldNames.map (fun n => (n, Attr.field)) ++
        [("mae", Attr.method g.mae), ("mse", Attr.method g.mse),
         ("msle", Attr.method g.msle), ("rmse", Attr.method g.rmse),
         ("rmsle", Attr.method g.rmsle), ("r2", Attr.method g.r2)]

/-- The variants whose `evaluate` is the attribute-dispatching
`Result.evaluate` of lines 423-432 (not the `NoResult` override). -/
def ResultRecord.usesAttrDispatch : ResultRecord → Prop
  | .classif _ => True
  | .regress _ => True
  | _ => False

/-- The message of the `TypeError` raised by calling a non-callable
attribute. -/
def notCallableMsg : String := "object is not callable"

/-- The message of the `TypeError` raised by `hasattr(self, None)` when
the metric name is not a string. -/
def hasattrTypeError : String := "TypeError: hasattr(): attribute name must be a string"

/-- Embedding of `evaluate` (lines 423-432, overridden at 441-442 for
`NoResult` and inherited by `ErrorResult`).  The metric argument is
`Option String`: `compute_scores` can pass the unset primary metric
(`None`) through `do_score`.  The result is the `(score, error)` pair;
the outer `Except` is the exception behaviour of the call itself. -/
def evaluate : ResultRecord → Option String → Except String (PVal × Option String)
  | .noRes _, _ => .ok (PVal.nan, Option.none)
  | .errRes _, _ => .ok (PVal.nan, Option.none)
  | _, Option.none => .error hasattrTypeError
  | r, some m =>
    match r.attrs.lookup m with
    | some (Attr.method out) =>
        match out with
        | .ok v => .ok (v, Option.none)
        | .error e => .ok (PVal.nan, some ("scoring " ++ m ++ ": " ++ e))
    | some Attr.field => .ok (PVal.nan, some ("scoring " ++ m ++ ": " ++ notCallableMsg))
    | Option.none => .ok (PVal.nan, some ("Unsupported metric " ++ m ++ " for " ++ r.typeName))

/-- `NoResult("Missing predictions.")` as produced by `load_predictions`
for an absent file (line 211). -/
def missingPredictionsResult : ResultRecord :=
  .noRes (some "Missing predictions.")

/-- `ErrorResult.__init__` (lines 447-451): the diagnostic is
`<type>: <error>` truncated to the configured maximum length with a
trailing `...`. -/
def mkErrorResult (errorQualname errorStr : String) (maxLen : ℕ) : ResultRecord :=
  let msg := errorQualname ++ ": " ++ errorStr
  .errRes (some (if msg.length ≤ maxLen then msg
                 else (msg.take (maxLen - 3)) ++ "..."))

/-!
## `TaskResult.compute_scores` (results.py lines 360-402)

The run-wide inputs read from the config/resource service
(`rconfig().run_mode`, `rget().app_version`, `datetime_iso()`) and the
task identity are bundled in `TaskCtx`.  The metadata namespace is the
output of `load_metadata`: the parsed side-file, or the all-unset
namespace when the side-file is absent (`NS.mk []` here).
-/

/-- Identity and run-wide fields of one `TaskResult`. -/
structure TaskCtx where
  taskId : String
  taskName : String
  constraint : String
  fold : ℤ
  runMode : String
  appVersion : String
  utc : String

/-- Line 379. -/
def required_metares : List String :=
  ["training_duration", "predict_duration", "models_count"]

/-- `Option String` to namespace value. -/
def optToPVal : Option String → PVal
  | some s => PVal.str s
  | Option.none => PVal.none

/-- The attribute name `evaluate` is handed: a string value passes
through, anything else (in particular the unset `None`) reaches
`hasattr` as a non-string. -/
def pvalAttrName : PVal → Option String
  | PVal.str s => some s
  | _ => Option.none

/-- `repr(...)` of a metadata value (only its stringness matters to the
claims). -/
def pyRepr : PVal → String
  | PVal.str s => "'" ++ s ++ "'"
  | PVal.num q => toString q.n ++ "/" ++ toString q.d
  | PVal.nan => "nan"
  | PVal.none => "None"
  | PVal.strList l => toString l

/-- The `for metric in metadata.metrics or []` loop of lines 394-395 with
the `do_score` error collection of lines 386-392: each declared metric is
evaluated, its score assigned, and any per-metric error message
appended. -/
def metricLoop (r : ResultRecord) : List String → NS → List String →
    Except String (NS × List String)
  | [], scores, errs => .ok (scores, errs)
  | m :: ms, scores, errs =>
    match evaluate r (some m) with
    | .error e => .error e
    | .ok (v, err) =>
        metricLoop r ms (scores.set m v)
          (match err with | some e => errs ++ [e] | Option.none => errs)

/-- The static fields of the score record (lines 364-378) followed by
the meta-result durations defaulting to NaN (lines 379-381). -/
def initialScores (ctx : TaskCtx) (metadata : NS) (mr : NS) : NS :=
  let scores : NS := ⟨[
    ("id", PVal.str ctx.taskId),
    ("task", PVal.str ctx.taskName),
    ("constraint", PVal.str ctx.constraint),
    ("framework", metadata.get "framework"),
    ("version", if metadata.hasKey "version" then metadata.get "version"
                else metadata.get "framework_version"),
    ("params", if (metadata.get "framework_params").truthy
               then PVal.str (pyRepr (metadata.get "framework_params"))
               else PVal.str ""),
    ("fold", PVal.num (PyNum.ofInt ctx.fold)),
    ("mode", PVal.str ctx.runMode),
    ("seed", metadata.get "seed"),
    ("app_version", PVal.str ctx.appVersion),
    ("utc", PVal.str ctx.utc),
    ("metric", metadata.get "metric"),
    ("duration", PVal.nan)]⟩
  required_metares.foldl
    (fun s m => s.set m (if mr.hasKey m then mr.get m else PVal.nan)) scores

/-- `metadata.metrics or []` (line 394). -/
def declaredMetrics (metadata : NS) : List String :=
  match metadata.get "metrics" with
  | PVal.strList l => l
  | _ => []

/-- Line 396: the primary metric's score is copied from the record when
already scored, else computed on the fly through `do_score`. -/
def primaryStep (result : ResultRecord) (scores : NS) (errs : List String) :
    Except String (PVal × List String) :=
  match scores.get "metric" with
  | PVal.str s =>
      if scores.hasKey s then .ok (scores.get s, errs)
      else
        match evaluate result (some s) with
        | .error e => .error e
        | .ok (v, err) =>
            .ok (v, match err with | some e => errs ++ [e] | Option.none => errs)
  | other =>
      match evaluate result (pvalAttrName other) with
      | .error e => .error e
      | .ok (v, err) =>
          .ok (v, match err with | some e => errs ++ [e] | Option.none => errs)

/-- Lines 396-400: `result` and `info` assignment, the semicolon join of
the scoring errors, and the non-overwriting merge of the residual
meta-result fields. -/
def finishScores (result : ResultRecord) (mr : NS) (scores : NS)
    (resVal : PVal) (errs : List String) : NS :=
  let s1 := scores.set "result" resVal
  let s2 := s1.set "info" (optToPVal result.info)
  let s3 :=
    if errs.isEmpty then s2
    else s2.set "info"
      (PVal.str (String.intercalate "; "
        ((match result.info with
          | some s => if s.isEmpty then [] else [s]
          | Option.none => []) ++ errs)))
  s3.mergeKeepingExisting
    (mr.entries.filter (fun kv => !required_metares.contains kv.1))

/-- Embedding of `TaskResult.compute_scores`.  The static fields are
populated from `metadata` (lines 364-378), the meta-result durations
default to NaN (lines 379-381), every declared metric is scored, the
primary metric's score is copied (or computed on the fly) into `result`
(line 396), `info` aggregates the result's diagnostic and the scoring
errors (lines 397-399), and residual meta-result fields merge in without
overwriting (line 400). -/
def compute_scores (ctx : TaskCtx) (metadata : NS) (meta_result : Option NS)
    (result : ResultRecord) : Except String NS :=
  let mr : NS := meta_result.getD ⟨[]⟩
  match metricLoop result (declaredMetrics metadata) (initialScores ctx metadata mr) [] with
  | .error e => .error e
  | .ok (scores, errs) =>
    match primaryStep result scores errs with
    | .error e => .error e
    | .ok (resVal, errs) => .ok (finishScores result mr scores resVal errs)

/-!
## `Scoreboard.as_printable_data_frame` (results.py lines 133-152)

The printable form rewrites columns in place: `str_print`/`int_print`
stringify identifier and nullable-integer columns, duration columns are
rounded to one decimal, remaining float columns to six significant
digits.  Python's `"{:.1f}"`/`"{:.6g}"` round half-to-even; the embedding
idealises the float values as rationals and rounds the rational exactly,
which agrees with Python on the inputs used here.
-/

/-- Round half to even to an integer (`f` is the floor; the fractional
part is compared with one half by cross multiplication). -/
def roundHalfEven (q : PyNum) : Int :=
  let f := q.floorI
  let r2 := 2 * (q.n - f * (q.d : Int))
  if r2 < (q.d : Int) then f
  else if (q.d : Int) < r2 then f + 1
  else if f % 2 = 0 then f else f + 1

/-- `"{:.1f}"` followed by the float re-parse: one decimal digit. -/
def fmt1 (q : PyNum) : PyNum :=
  PyNum.norm (roundHalfEven (q.mul ⟨10, 1⟩)) 10

/-- Number of decimal digits of `n` minus one (`⌊log10 n⌋` for positive
`n`), with explicit fuel. -/
def log10Fuel : ℕ → ℕ → ℕ
  | 0, _ => 0
  | fuel + 1, m => if m < 10 then 0 else 1 + log10Fuel fuel (m / 10)

/-- `⌊log10 n⌋` for a natural number. -/
def nlog10 (m : ℕ) : ℕ := log10Fuel m m

/-- `⌊log10 x⌋` for a positive rational (bounded search below 1: for
`a/b < 1` the scale is reached after at most one shift per digit of
`b`). -/
def floorLog10 (x : PyNum) : Int :=
  if PyNum.leB ⟨1, 1⟩ x then (nlog10 x.floorI.toNat : Int)
  else
    match (List.range (nlog10 x.d + 2)).find?
        (fun m => PyNum.leB ⟨1, 1⟩ (x.mul ⟨((10 : ℕ) ^ m : ℕ), 1⟩)) with
    | some m => -(m : Int)
    | Option.none => 0

/-- `"{:.6g}"` followed by the float re-parse: six significant digits. -/
def fmt6g (q : PyNum) : PyNum :=
  if q.n = 0 then ⟨0, 1⟩
  else
    let s : Int := if 0 ≤ q.n then 1 else -1
    let x := q.abs
    let e := floorLog10 x
    let p := pow10Z (e - 5)
    (PyNum.ofInt (s * roundHalfEven (x.div p))).mul p

/-- `str_print` (line 135) on a string value. -/
def strPrintStr (s : String) : String :=
  if s = "" || s = "None" then "" else s

/-- `str_print` then `.astype(np.str)` on one cell (the `id` column,
lines 144-145): null sentinels become the empty string, everything else
its string form. -/
def strPrintCell : Cell → Cell
  | Cell.none => Cell.str ""
  | Cell.nan => Cell.str ""
  | Cell.num q => Cell.str (toString q.n ++ "/" ++ toString q.d)
  | Cell.str s => Cell.str (strPrintStr s)

/-- `int_print` then `.astype(np.str)` (fold / models_count / seed,
lines 146-147): a number renders as an integer, null renders blank. -/
def intPrintCell : Cell → Cell
  | Cell.num q => Cell.str (toString q.truncI)
  | Cell.nan => Cell.str ""
  | Cell.none => Cell.str ""
  | Cell.str s => Cell.str (strPrintStr s)

/-- Digit run to number. -/
def digitsToNat (l : Chs) : ℕ :=
  l.foldl (fun n c => 10 * n + (c.toNat - 48)) 0

/-- An unsigned decimal literal (Python `float(...)` fragment; exponents
and `inf` are not exercised by the source's own output). -/
def parseUDecimal (l : Chs) : Option PyNum :=
  match l.splitOn '.' with
  | [ip] =>
      if !ip.isEmpty && ip.all Char.isDigit then some ⟨(digitsToNat ip : Int), 1⟩
      else Option.none
  | [ip, fp] =>
      if (!ip.isEmpty || !fp.isEmpty) && ip.all Char.isDigit && fp.all Char.isDigit
      then some (PyNum.norm
        ((digitsToNat ip * 10 ^ fp.length + digitsToNat fp : ℕ) : Int)
        ((10 : ℕ) ^ fp.length))
      else Option.none
  | _ => Option.none

/-- A signed decimal literal. -/
def parseDecimal : Chs → Option PyNum
  | '-' :: r => (parseUDecimal r).map (fun q => ⟨-q.n, q.d⟩)
  | l => parseUDecimal l

/-- `.astype(np.float)` on one cell: numbers and NaN pass, `None` becomes
NaN, a string must parse as a float or the cast raises. -/
def astypeFloatCell : Cell → Except String Cell
  | Cell.num q => .ok (Cell.num q)
  | Cell.nan => .ok Cell.nan
  | Cell.none => .ok Cell.nan
  | Cell.str s =>
      if s = "nan" then .ok Cell.nan
      else
        match parseDecimal s.data with
        | some q => .ok (Cell.num q)
        | Option.none => .error ("could not convert string to float: " ++ s)

/-- `"{:.1f}"` format and re-parse on a float cell. -/
def fmt1Cell : Cell → Cell
  | Cell.num q => Cell.num (fmt1 q)
  | c => c

/-- `num_print` with `"{:.6g}"` then `.astype(np.float)` (lines
150-151): strings become `None` and then NaN, numbers round to six
significant digits; a `None` reaching the formatter raises. -/
def numPrint6Cell : Cell → Except String Cell
  | Cell.num q => .ok (Cell.num (fmt6g q))
  | Cell.nan => .ok Cell.nan
  | Cell.str _ => .ok Cell.nan
  | Cell.none => .error "unsupported format string passed to NoneType"

/-- Rewrite position `i` of a row through a fallible cell function. -/
def updateAtM (f : Cell → Except String Cell) : ℕ → List Cell → Except String (List Cell)
  | _, [] => .ok []
  | 0, a :: l => (f a).map (· :: l)
  | n + 1, a :: l => (updateAtM f n l).map (a :: ·)

/-- `df[col] = df[col].map(...)`: rewrite one column in place; a missing
column is the `KeyError` of `df[col]`. -/
def applyColE (df : DF) (c : String) (f : Cell → Except String Cell) :
    Except String DF :=
  match df.cols.indexOf? c with
  | some i => (df.rows.mapM (updateAtM f i)).map (fun rs => ⟨df.cols, rs⟩)
  | Option.none => .error ("KeyError: " ++ c)

/-- Total column rewrite. -/
def applyCol (df : DF) (c : String) (f : Cell → Cell) : Except String DF :=
  applyColE df c (fun x => .ok (f x))

/-- Column dtype test used by `select_dtypes(include=[np.float])`: every
cell is a float value (number or NaN) and the frame has rows. -/
def colIsFloat (df : DF) (c : String) : Bool :=
  match df.cols.indexOf? c with
  | some i =>
      !df.rows.isEmpty &&
        df.rows.all (fun r => match r.getD i Cell.nan with
          | Cell.num _ => true
          | Cell.nan => true
          | _ => false)
  | Option.none => false

/-- Lines 141-142. -/
def nanableIntCols : List String := ["fold", "models_count", "seed"]

/-- Line 142. -/
def lowPrecisionFloatCols : List String := ["duration", "training_duration", "predict_duration"]

/-- The column rewrites of `as_printable_data_frame` (lines 135-152),
applied to the frame produced by `as_data_frame`.  The high-precision
column set is computed from the dtypes before any rewrite, as in line
143. -/
def printableRewrite (df0 : DF) : Except String DF := do
  let hp := df0.cols.filter (fun c =>
    colIsFloat df0 c && !(nanableIntCols ++ lowPrecisionFloatCols).contains c)
  let df1 ← applyCol df0 "id" strPrintCell
  let df2 ← nanableIntCols.foldlM (fun d c => applyCol d c intPrintCell) df1
  let df3 ← lowPrecisionFloatCols.foldlM (fun d c => do
      let d' ← applyColE d c astypeFloatCell
      applyCol d' c fmt1Cell) df2
  hp.foldlM (fun d c => applyColE d c numPrint6Cell) df3

/-!
## The `Scoreboard` object and the `@cached` aliasing

`as_data_frame` and `as_printable_data_frame` are both decorated with
`@cached`.  Modelled from the spec: `cached` (from `amlb.utils`, not in
`results.py`) memoizes the method's result on the instance, so the frame
object returned by `as_data_frame` is stored and returned again on every
later call.  `as_printable_data_frame` starts from that very object
(`df = self.as_data_frame()`, line 139, with no copy) and its
`df[col] = ...` assignments mutate it in place, so after the rewrite the
cache of `as_data_frame` holds the rewritten frame.  The embedding makes
that aliasing explicit in the cache bookkeeping of `sbAsPrintable`.
-/

/-- One `Scoreboard` instance: its raw `scores` table and the two method
caches. -/
structure SB where
  scores : DF
  dfCache : Option DF := Option.none
  printableCache : Option DF := Option.none
deriving DecidableEq, Repr

/-- `self.as_data_frame()` with its `@cached` wrapper: compute once,
store, and afterwards return the stored frame. -/
def sbAsDataFrame (b : SB) : DF × SB :=
  match b.dfCache with
  | some df => (df, b)
  | Option.none =>
      let df := as_data_frame b.scores
      (df, { b with dfCache := some df })

/-- `self.as_printable_data_frame()` with its `@cached` wrapper: the
rewrite runs on the object cached by `as_data_frame`, mutating it, so
both caches end up holding the rewritten frame. -/
def sbAsPrintable (b : SB) : Except String (DF × SB) :=
  match b.printableCache with
  | some p => .ok (p, b)
  | Option.none =>
      let (df, b1) := sbAsDataFrame b
      match printableRewrite df with
      | .error e => .error e
      | .ok p => .ok (p, { b1 with dfCache := some p, printableCache := some p })

/-- `Scoreboard.save` (lines 157-158) as seen from memory: the frame
handed to `save_df` for writing, and the scoreboard object afterwards. -/
def sbSave (b : SB) : Except String (DF × SB) :=
  sbAsPrintable b

/-!
## `Scoreboard` file naming (results.py lines 45-75 and 171-188)

`from_file` tries, in order, the regex patterns of lines 52-59 against
the basename (`re.fullmatch`); `_score_file` produces the name from the
scope.  The regexes are embedded as explicit matchers; the backtracking
search over the first (greedy) `[\w\-]+` group is the descending scan of
`matchAKB`.  Note that `_score_file` writes a literal underscore after
the `task`/`benchmark` keyword (`f"...{sep}task_{task}.csv"`), while
`from_file` expects the configured separator on both sides of the
keyword.
-/

/-- Keyword `task` of the patterns. -/
def kwTask : Chs := ['t', 'a', 's', 'k']

/-- Keyword `benchmark` of the patterns. -/
def kwBenchmark : Chs := ['b', 'e', 'n', 'c', 'h', 'm', 'a', 'r', 'k']

/-- Literal `.csv`. -/
def dotCsv : Chs := ['.', 'c', 's', 'v']

/-- Split a `....csv` name into its core (`re.fullmatch` of a pattern
ending in `\.csv`; the groups cannot contain `.`, so the suffix is the
last four characters). -/
def stripCsv (s : Chs) : Option Chs :=
  if 4 ≤ s.length && s.drop (s.length - 4) = dotCsv then some (s.take (s.length - 4))
  else Option.none

/-- One candidate split of `core` as `A ++ sep :: K ++ sep :: B` with
`A = core.take i`. -/
def akbStep (sep : Char) (K : Chs) (core : Chs) (i : ℕ) : Option (Chs × Chs) :=
  let A := core.take i
  let rest := core.drop i
  if wordTok A && rest.take (K.length + 2) = sep :: (K ++ [sep]) then
    let B := rest.drop (K.length + 2)
    if wordTok B then some (A, B) else Option.none
  else Option.none

/-- `re.fullmatch` of `(?P<g1>[\w\-]+){sep}K{sep}(?P<g2>[\w\-]+)\.csv`
(patterns of lines 54 and 56): the first group is greedy, so the longest
viable `A` wins. -/
def matchAKB (sep : Char) (K : Chs) (s : Chs) : Option (Chs × Chs) :=
  match stripCsv s with
  | Option.none => Option.none
  | some core => ((List.range (core.length + 1)).reverse).findSome? (akbStep sep K core)

/-- `re.fullmatch` of `K{sep}(?P<g>[\w\-]+)\.csv` (patterns of lines 55
and 57). -/
def matchKB (sep : Char) (K : Chs) (s : Chs) : Option Chs :=
  match stripCsv s with
  | Option.none => Option.none
  | some core =>
    if core.take (K.length + 1) = K ++ [sep] then
      let B := core.drop (K.length + 1)
      if wordTok B then some B else Option.none
    else Option.none

/-- `re.fullmatch` of `(?P<framework>[\w\-]+)\.csv` (line 58). -/
def matchFw (s : Chs) : Option Chs :=
  match stripCsv s with
  | Option.none => Option.none
  | some core => if wordTok core then some core else Option.none

/-- `re.fullmatch` of the literal pattern `results.csv` (line 53; its `.`
is the regex wildcard): seven literal characters, one arbitrary
character, then `csv`, eleven characters in total. -/
def matchResultsFile (s : Chs) : Bool :=
  decide (s.length = 11) &&
    decide (s.take 7 = ['r', 'e', 's', 'u', 'l', 't', 's']) &&
    decide (s.drop 8 = ['c', 's', 'v'])

/-- Number of underscores of a string (used to pin down where the
literal separators of a pattern can land). -/
def usCount : Chs → ℕ
  | [] => 0
  | c :: l => (if c = '_' then 1 else 0) + usCount l

/-- A scoreboard scope: the optional framework/benchmark/task filter.
`Option.none` stands both for Python `None` and for the falsy `False`
that `from_file` stores for a group absent from the matched pattern. -/
structure Scope where
  framework : Option Chs
  benchmark : Option Chs
  task : Option Chs
deriving DecidableEq, Repr

/-- Embedding of `Scoreboard.from_file` (lines 45-75) on the basename:
the patterns are tried in order, first match wins, no match means the
path is not a scoreboard file. -/
def from_file (sep : Char) (basename : Chs) : Option Scope :=
  if matchResultsFile basename then some ⟨Option.none, Option.none, Option.none⟩
  else
    match matchAKB sep kwBenchmark basename with
    | some (a, b) => some ⟨some a, some b, Option.none⟩
    | Option.none =>
      match matchKB sep kwBenchmark basename with
      | some b => some ⟨Option.none, some b, Option.none⟩
      | Option.none =>
        match matchAKB sep kwTask basename with
        | some (a, t) => some ⟨some a, Option.none, some t⟩
        | Option.none =>
          match matchKB sep kwTask basename with
          | some t => some ⟨Option.none, Option.none, some t⟩
          | Option.none =>
            match matchFw basename with
            | some a => some ⟨some a, Option.none, Option.none⟩
            | Option.none => Option.none

/-- Embedding of `Scoreboard._score_file` (lines 171-188): the backing
file name, with the precedence framework+task > framework+benchmark >
framework > task > benchmark > the global default.  The separator
appears only after the framework name; after the `task`/`benchmark`
keyword the source writes a literal `_`. -/
def score_file_name (sep : Char) (scope : Scope) : Chs :=
  match scope.framework with
  | some fw =>
    match scope.task with
    | some t => fw ++ sep :: (kwTask ++ '_' :: (t ++ dotCsv))
    | Option.none =>
      match scope.benchmark with
      | some b => fw ++ sep :: (kwBenchmark ++ '_' :: (b ++ dotCsv))
      | Option.none => fw ++ dotCsv
  | Option.none =>
    match scope.task with
    | some t => kwTask ++ '_' :: (t ++ dotCsv)
    | Option.none =>
      match scope.benchmark with
      | some b => kwBenchmark ++ '_' :: (b ++ dotCsv)
      | Option.none => ['r', 'e', 's', 'u', 'l', 't', 's'] ++ dotCsv

/-!
## `TaskResult.score_from_predictions_file` identity derivation
(results.py lines 309-331)

The folder pattern of line 315 is built with an `rf`-string, so the
`{8}` and `{6}` inside it are *f-string replacement fields*: the
compiled regex ends in `{sep}(?P<datetime>\d8T\d6))/` - a digit, a
literal `8`, `T`, a digit, a literal `6` - and the parenthesised
datetime part carries no `?`, making it mandatory.  The embedding
reproduces exactly that compiled pattern.  The basename pattern of line
320 is `(?P<framework>[\w\-]+?){sep}(?P<task>[\w\-]+){sep}(?P<fold>\d+)\.csv`
with a lazy framework group.
-/

/-- Indices at which `sep` occurs (the only places a literal `{sep}` of
the pattern can match). -/
def sepPositions (sep : Char) (s : Chs) : List ℕ :=
  (List.range s.length).filter (fun i => s.get? i = some sep)

/-- One candidate split of the basename core at sep positions `i < j`. -/
def predFileAt (sep : Char) (core : Chs) (i j : ℕ) : Option (Chs × Chs × ℕ) :=
  let A := core.take i
  let T := (core.drop (i + 1)).take (j - i - 1)
  let D := core.drop (j + 1)
  if core.get? i = some sep && core.get? j = some sep &&
      wordTok A && wordTok T && !D.isEmpty && D.all digitChar
  then some (A, T, digitsToNat D) else Option.none

/-- `re.fullmatch` of the basename pattern (line 320): framework lazy
(shortest first), task greedy (longest first), fold parsed as an
integer. -/
def predBasenameMatch (sep : Char) (basename : Chs) : Option (Chs × Chs × ℕ) :=
  match stripCsv basename with
  | Option.none => Option.none
  | some core =>
    (sepPositions sep core).findSome? (fun i =>
      ((sepPositions sep core).reverse).findSome? (fun j =>
        if i < j then predFileAt sep core i j else Option.none))

/-- The compiled tail of the folder pattern: `{sep}` already consumed,
then `\d8T\d6` and the closing `/`. -/
def folderDT (s : Chs) : Bool :=
  match s with
  | c1 :: '8' :: 'T' :: c2 :: '6' :: '/' :: _ => c1.isDigit && c2.isDigit
  | _ => false

/-- The named groups of the folder pattern. -/
structure FolderGroups where
  framework : Chs
  benchmark : Chs
  constraint : Chs
  mode : Chs
  datetime : Chs
deriving DecidableEq, Repr

/-- One candidate split of the folder at sep positions
`i1 < i2 < i3 < i4`. -/
def folderAt (sep : Char) (s : Chs) (i1 i2 i3 i4 : ℕ) : Option FolderGroups :=
  let A := (s.drop 1).take (i1 - 1)
  let B := (s.drop (i1 + 1)).take (i2 - i1 - 1)
  let C := (s.drop (i2 + 1)).take (i3 - i2 - 1)
  let D := (s.drop (i3 + 1)).take (i4 - i3 - 1)
  let rest := s.drop (i4 + 1)
  if s.get? i1 = some sep && s.get? i2 = some sep && s.get? i3 = some sep &&
      s.get? i4 = some sep && wordTok A && wordTok B && wordTok C && wordTok D &&
      folderDT rest
  then some ⟨A, B, C, D, rest.take 5⟩ else Option.none

/-- `re.match` of the folder pattern as actually compiled (line 315):
anchored leading `/`, lazy framework, greedy benchmark / constraint /
mode, then the mandatory mis-built datetime `\d8T\d6` and a closing
`/`. -/
def predFolderMatch (sep : Char) (folder : Chs) : Option FolderGroups :=
  match folder with
  | '/' :: _ =>
    (sepPositions sep folder).findSome? (fun i1 =>
      ((sepPositions sep folder).reverse).findSome? (fun i2 =>
        ((sepPositions sep folder).reverse).findSome? (fun i3 =>
          ((sepPositions sep folder).reverse).findSome? (fun i4 =>
            if i1 < i2 ∧ i2 < i3 ∧ i3 < i4 then folderAt sep folder i1 i2 i3 i4
            else Option.none))))
  | _ => Option.none

/-- The task identity `score_from_predictions_file` derives from a path
(lines 312-331): `None` when the basename does not match (hard failure);
otherwise framework/task/fold from the basename and the folder-derived
fields, which stay unset (`folder_g` is a `defaultdict(lambda: None)`)
when the folder pattern does not match. -/
structure PredIdentity where
  framework : Chs
  task : Chs
  fold : ℕ
  benchmark : Option Chs
  constraint : Option Chs
  mode : Option Chs
  datetime : Option Chs
deriving DecidableEq, Repr

/-- Identity derivation of `score_from_predictions_file`. -/
def derivePredIdentity (sep : Char) (folder basename : Chs) : Option PredIdentity :=
  let fg := predFolderMatch sep folder
  match predBasenameMatch sep basename with
  | Option.none => Option.none
  | some (fw, t, fd) =>
      some ⟨fw, t, fd, fg.map (·.benchmark), fg.map (·.constraint),
            fg.map (·.mode), fg.map (·.datetime)⟩

/-!
## `TaskResult.load_predictions` / `load_metadata` (results.py lines
193-220)

The file system and the csv parse are abstracted into the state of the
artifact; `read_csv` and `json_load` live outside `results.py`.
-/

/-- State of the predictions artifact at its expected path. -/
inductive PredsArtifact where
  /-- no file at the path -/
  | missing
  /-- reading / parsing / validating raised (exception type and message) -/
  | unreadable (errQualname errMsg : String)
  /-- parsed with more than two columns (`ClassificationResult`) -/
  | classifTable (c : ClassifData)
  /-- parsed with at most two columns (`RegressionResult`) -/
  | regressTable (g : RegData)

/-- Embedding of `TaskResult.load_predictions` (lines 195-211):
absence yields `NoResult("Missing predictions.")` (a logged warning, not
an error), a raise during load yields an `ErrorResult`, otherwise the
column count selects the variant. -/
def load_predictions (maxErrLen : ℕ) : PredsArtifact → ResultRecord
  | .missing => missingPredictionsResult
  | .unreadable q m => mkErrorResult q m maxErrLen
  | .classifTable c => ResultRecord.classif c
  | .regressTable g => ResultRecord.regress g

/-- Embedding of `TaskResult.load_metadata` (lines 213-220): the parsed
side-file, or - when the side-file is absent - the all-unset namespace
`Namespace(lambda: None)` (a logged warning, not an error). -/
def load_metadata : Option NS → NS
  | some ns => ns
  | Option.none => ⟨[]⟩

/-!
## Concrete instances used by counterexamples and witnesses
-/

/-- A one-row score table holding every fixed column plus an `acc`
metric column. -/
def exampleScores : DF :=
  ⟨fixedCols ++ ["acc"],
   [[Cell.str "59", Cell.str "iris", Cell.str "H2O", Cell.str "1h",
     Cell.num ⟨0, 1⟩, Cell.num ⟨1, 2⟩, Cell.str "acc", Cell.str "local",
     Cell.str "3.30", Cell.str "", Cell.str "dev", Cell.str "2020",
     Cell.num ⟨3, 2⟩, Cell.num ⟨1, 1⟩, Cell.num ⟨1, 10⟩, Cell.num ⟨3, 1⟩,
     Cell.num ⟨42, 1⟩, Cell.str "", Cell.num ⟨1, 1⟩]]⟩

/-- A freshly constructed scoreboard over `exampleScores`. -/
def exampleBoard : SB := { scores := exampleScores }

/-- The printable frame computed for `exampleBoard` (evaluated form;
used to instantiate hypotheses at a concrete input). -/
def exampleBoardPrintable : DF :=
  match printableRewrite (as_data_frame exampleBoard.scores) with
  | .ok p => p
  | .error _ => ⟨[], []⟩

/-- A concrete task context. -/
def exampleCtx : TaskCtx :=
  { taskId := "openml.org/t/59", taskName := "iris", constraint := "1h",
    fold := 0, runMode := "local", appVersion := "dev",
    utc := "2020-01-01T01:01:01" }

/-- A metadata namespace as parsed from a normal side-file. -/
def exampleMetadata : NS :=
  ⟨[("framework", PVal.str "H2OAutoML"), ("framework_version", PVal.str "3.30"),
    ("seed", PVal.num ⟨42, 1⟩), ("metric", PVal.str "acc"),
    ("metrics", PVal.strList ["acc", "logloss"])]⟩

/-- A binary classification result whose `balacc` computation raises. -/
def exampleClassif : ClassifData :=
  { info := Option.none
    nclasses := 2
    acc := .ok (PVal.num ⟨1, 1⟩)
    balacc := .error "ZeroDivisionError: division by zero"
    auc := .ok (PVal.num ⟨1, 1⟩)
    cm := .ok (PVal.str "[[1, 0], [0, 1]]")
    mean_pce := .ok (PVal.num ⟨0, 1⟩)
    max_pce := .ok (PVal.num ⟨0, 1⟩)
    f1 := .ok (PVal.num ⟨1, 1⟩)
    logloss := .ok (PVal.num ⟨1, 100⟩) }

/-- A two-identical-row score table (duplicate rows are possible in a
loaded ledger). -/
def dupRowScores : DF :=
  ⟨fixedCols,
   [[Cell.str "59", Cell.str "iris", Cell.str "H2O", Cell.str "1h",
     Cell.num ⟨0, 1⟩, Cell.num ⟨1, 2⟩, Cell.str "acc", Cell.str "local",
     Cell.str "3.30", Cell.str "", Cell.str "dev", Cell.str "2020",
     Cell.num ⟨3, 2⟩, Cell.num ⟨1, 1⟩, Cell.num ⟨1, 10⟩, Cell.num ⟨3, 1⟩,
     Cell.num ⟨42, 1⟩, Cell.str ""],
    [Cell.str "59", Cell.str "iris", Cell.str "H2O", Cell.str "1h",
     Cell.num ⟨0, 1⟩, Cell.num ⟨1, 2⟩, Cell.str "acc", Cell.str "local",
     Cell.str "3.30", Cell.str "", Cell.str "dev", Cell.str "2020",
     Cell.num ⟨3, 2⟩, Cell.num ⟨1, 1⟩, Cell.num ⟨1, 10⟩, Cell.num ⟨3, 1⟩,
     Cell.num ⟨42, 1⟩, Cell.str ""]]⟩

/-!
# Theorems

General lemmas first, then one theorem per claim (witnesses and
counterexamples next to their claim).
-/

theorem rowMem_iff (r : List Cell) (l : List (List Cell)) :
    rowMem r l = true ↔ r ∈ l := by
  induction l with
  | nil => simp [rowMem]
  | cons x t ih =>
    simp only [rowMem, Bool.or_eq_true, decide_eq_true_eq, List.mem_cons, ih]
    constructor
    · rintro (rfl | h)
      · exact Or.inl rfl
      · exact Or.inr h
    · rintro (rfl | h)
      · exact Or.inl rfl
      · exact Or.inr h

theorem dedupSeen_mem (l : List (List Cell)) :
    ∀ seen r, (r ∈ seen ∨ r ∈ l) → r ∈ dedupSeen seen l := by
  induction l with
  | nil =>
    intro seen r h
    simpa [dedupSeen] using h.resolve_right (by simp)
  | cons a t ih =>
    intro seen r h
    by_cases ha : rowMem a seen = true
    · rw [dedupSeen, if_pos ha]
      refine ih seen r ?_
      rcases h with h | h
      · exact Or.inl h
      · rcases List.mem_cons.mp h with rfl | h
        · exact Or.inl ((rowMem_iff _ _).mp ha)
        · exact Or.inr h
    · rw [dedupSeen, if_neg ha]
      refine ih (a :: seen) r ?_
      rcases h with h | h
      · exact Or.inl (List.mem_cons_of_mem _ h)
      · rcases List.mem_cons.mp h with rfl | h
        · exact Or.inl (List.mem_cons_self _ _)
        · exact Or.inr h

theorem dedupKeepFirstAux_append (l1 : List (List Cell)) :
    ∀ seen l2, dedupKeepFirstAux seen (l1 ++ l2) =
      dedupKeepFirstAux seen l1 ++ dedupKeepFirstAux (dedupSeen seen l1) l2 := by
  induction l1 with
  | nil => intro seen l2; simp [dedupKeepFirstAux, dedupSeen]
  | cons a t ih =>
    intro seen l2
    by_cases ha : rowMem a seen = true
    · have h1 : dedupKeepFirstAux seen ((a :: t) ++ l2) =
          dedupKeepFirstAux seen (t ++ l2) := by
        rw [List.cons_append, dedupKeepFirstAux, if_pos ha]
      have h2 : dedupKeepFirstAux seen (a :: t) = dedupKeepFirstAux seen t := by
        rw [dedupKeepFirstAux, if_pos ha]
      have h3 : dedupSeen seen (a :: t) = dedupSeen seen t := by
        rw [dedupSeen, if_pos ha]
      rw [h1, h2, h3, ih seen l2]
    · have h1 : dedupKeepFirstAux seen ((a :: t) ++ l2) =
          a :: dedupKeepFirstAux (a :: seen) (t ++ l2) := by
        rw [List.cons_append, dedupKeepFirstAux, if_neg ha]
      have h2 : dedupKeepFirstAux seen (a :: t) =
          a :: dedupKeepFirstAux (a :: seen) t := by
        rw [dedupKeepFirstAux, if_neg ha]
      have h3 : dedupSeen seen (a :: t) = dedupSeen (a :: seen) t := by
        rw [dedupSeen, if_neg ha]
      rw [h1, h2, h3, ih (a :: seen) l2, List.cons_append]

theorem dedupKeepFirstAux_nil_of_seen (l : List (List Cell)) :
    ∀ seen, (∀ r ∈ l, r ∈ seen) → dedupKeepFirstAux seen l = [] := by
  induction l with
  | nil => intro seen _; rfl
  | cons a t ih =>
    intro seen h
    rw [dedupKeepFirstAux,
        if_pos ((rowMem_iff _ _).mpr (h a (List.mem_cons_self _ _)))]
    exact ih seen (fun r hr => h r (List.mem_cons_of_mem _ hr))

theorem dedupKeepFirst_append_self (l : List (List Cell)) :
    dedupKeepFirst (l ++ l) = dedupKeepFirst l := by
  rw [dedupKeepFirst, dedupKeepFirst, dedupKeepFirstAux_append]
  rw [dedupKeepFirstAux_nil_of_seen l (dedupSeen [] l)
    (fun r hr => dedupSeen_mem l [] r (Or.inr hr))]
  simp

theorem dedupKeepFirstAux_eq_self (l : List (List Cell)) :
    ∀ seen, l.Nodup → (∀ r ∈ l, r ∉ seen) → dedupKeepFirstAux seen l = l := by
  induction l with
  | nil => intro seen _ _; rfl
  | cons a t ih =>
    intro seen hnd hs
    have hns : ¬ rowMem a seen = true := by
      intro hc
      exact hs a (List.mem_cons_self _ _) ((rowMem_iff _ _).mp hc)
    rw [dedupKeepFirstAux, if_neg hns]
    have hat : a ∉ t := (List.nodup_cons.mp hnd).1
    rw [ih (a :: seen) (List.nodup_cons.mp hnd).2 ?_]
    intro r hr
    intro hmem
    rcases List.mem_cons.mp hmem with rfl | h
    · exact hat hr
    · exact hs r (List.mem_cons_of_mem _ hr) h

theorem dedupKeepFirst_eq_self_of_nodup (l : List (List Cell)) (h : l.Nodup) :
    dedupKeepFirst l = l :=
  dedupKeepFirstAux_eq_self l [] h (by simp)

theorem length_dedupKeepFirstAux_le (l : List (List Cell)) :
    ∀ seen, (dedupKeepFirstAux seen l).length ≤ l.length := by
  induction l with
  | nil => intro seen; simp [dedupKeepFirstAux]
  | cons a t ih =>
    intro seen
    by_cases ha : rowMem a seen = true
    · rw [dedupKeepFirstAux, if_pos ha]
      exact le_trans (ih seen) (Nat.le_succ _)
    · rw [dedupKeepFirstAux, if_neg ha]
      simpa using Nat.succ_le_succ (ih (a :: seen))

theorem length_dedupKeepFirst_le (l : List (List Cell)) :
    (dedupKeepFirst l).length ≤ l.length :=
  length_dedupKeepFirstAux_le l []

/-- **C6** For every save of a scoreboard table: an existing file with a
differing header is backed up and the table written with a fresh header;
an existing file with a matching header under append mode gets rows
appended without a header rewrite (and no backup); in every other
combination (file absent, or existing file without append) the table is
written with a fresh header, the existing file (when there is one) being
backed up first. -/
theorem c6_save_df_header_logic (fileDoesExist append : Bool)
    (oldH newH : List String) :
    (fileDoesExist = true → oldH ≠ newH →
      save_df fileDoesExist oldH newH append =
        { backedUp := true, wroteHeader := true, appendedRows := false }) ∧
    (fileDoesExist = true → oldH = newH → append = true →
      save_df fileDoesExist oldH newH append =
        { backedUp := false, wroteHeader := false, appendedRows := true }) ∧
    (fileDoesExist = false →
      save_df fileDoesExist oldH newH append =
        { backedUp := false, wroteHeader := true, appendedRows := false }) ∧
    (fileDoesExist = true → append = false →
      save_df fileDoesExist oldH newH append =
        { backedUp := true, wroteHeader := true, appendedRows := false }) := by
  refine ⟨?_, ?_, ?_, ?_⟩
  · intro h1 h2
    simp [save_df, h1, h2]
  · intro h1 h2 h3
    simp [save_df, h1, h2, h3]
  · intro h1
    simp [save_df, h1]
  · intro h1 h2
    cases heq : decide (oldH = newH) <;> simp [save_df, h1, h2, heq]

/-- Witness for C6: the four cases at concrete inputs. -/
theorem c6_save_df_header_logic_witness :
    (save_df true ["a"] ["b"] true =
      { backedUp := true, wroteHeader := true, appendedRows := false }) ∧
    (save_df true ["a"] ["a"] true =
      { backedUp := false, wroteHeader := false, appendedRows := true }) ∧
    (save_df false ["a"] ["a"] true =
      { backedUp := false, wroteHeader := true, appendedRows := false }) ∧
    (save_df true ["a"] ["a"] false =
      { backedUp := true, wroteHeader := true, appendedRows := false }) :=
  ⟨(c6_save_df_header_logic true true ["a"] ["b"]).1 rfl (by decide),
   (c6_save_df_header_logic true true ["a"] ["a"]).2.1 rfl rfl rfl,
   (c6_save_df_header_logic false true ["a"] ["a"]).2.2.1 rfl,
   (c6_save_df_header_logic true false ["a"] ["a"]).2.2.2 rfl rfl⟩

/-- **C9** For every metric name (and even a non-string one), a
`NoResult` and an `ErrorResult` evaluate to `(NaN, None)`: absence or
failure to produce predictions is never reported as a per-metric
evaluation error. -/
theorem c9_noresult_evaluate (i : Option String) (m : Option String)
    (q e : String) (maxLen : ℕ) :
    evaluate (ResultRecord.noRes i) m = .ok (PVal.nan, Option.none) ∧
    evaluate (mkErrorResult q e maxLen) m = .ok (PVal.nan, Option.none) := by
  constructor
  · simp [evaluate]
  · simp [mkErrorResult, evaluate]

/-- **C8** (amended) Appending a scoreboard to itself with
`no_duplicates=True` keeps exactly the distinct rows (first occurrences)
of its table: the row count never grows, and is unchanged precisely when
the table had no duplicate rows to begin with. -/
theorem c8_self_append_dedup (b : DF) :
    (scoreboardAppend b b true).rows = dedupKeepFirst (as_data_frame b).rows ∧
    (scoreboardAppend b b true).rows.length ≤ (as_data_frame b).rows.length ∧
    ((as_data_frame b).rows.Nodup →
      (scoreboardAppend b b true).rows.length = (as_data_frame b).rows.length) := by
  have hconcat : dfConcat (as_data_frame b) (as_data_frame b) =
      ⟨(as_data_frame b).cols, (as_data_frame b).rows ++ (as_data_frame b).rows⟩ := by
    simp [dfConcat]
  have hrows : (scoreboardAppend b b true).rows =
      dedupKeepFirst (as_data_frame b).rows := by
    simp only [scoreboardAppend, hconcat]
    exact dedupKeepFirst_append_self _
  refine ⟨hrows, ?_, ?_⟩
  · rw [hrows]
    exact length_dedupKeepFirst_le _
  · intro hnd
    rw [hrows, dedupKeepFirst_eq_self_of_nodup _ hnd]

/-- Counterexample for C8 as stated: a board whose table already holds
duplicate rows shrinks under self-append with deduplication. -/
theorem c8_counterexample :
    (scoreboardAppend dupRowScores dupRowScores true).rows.length ≠
      dupRowScores.rows.length := by decide

/-- Witness for C8: on a duplicate-free table the row count is
preserved. -/
theorem c8_self_append_dedup_witness :
    (as_data_frame exampleScores).rows.Nodup ∧
    (scoreboardAppend exampleScores exampleScores true).rows.length =
      (as_data_frame exampleScores).rows.length :=
  ⟨by decide, (c8_self_append_dedup exampleScores).2.2 (by decide)⟩

theorem evaluate_some_isOk (r : ResultRecord) (m : String) :
    ∃ v, evaluate r (some m) = .ok v := by
  cases r with
  | noRes i => exact ⟨(PVal.nan, Option.none), by simp [evaluate]⟩
  | errRes i => exact ⟨(PVal.nan, Option.none), by simp [evaluate]⟩
  | classif c =>
    cases h : (ResultRecord.classif c).attrs.lookup m with
    | none =>
      exact ⟨(PVal.nan, some ("Unsupported metric " ++ m ++ " for " ++
        (ResultRecord.classif c).typeName)), by simp [evaluate, h]⟩
    | some a =>
      cases a with
      | field =>
        exact ⟨(PVal.nan, some ("scoring " ++ m ++ ": " ++ notCallableMsg)),
          by simp [evaluate, h]⟩
      | method out =>
        cases out with
        | ok v => exact ⟨(v, Option.none), by simp [evaluate, h]⟩
        | error e =>
          exact ⟨(PVal.nan, some ("scoring " ++ m ++ ": " ++ e)),
            by simp [evaluate, h]⟩
  | regress g =>
    cases h : (ResultRecord.regress g).attrs.lookup m with
    | none =>
      exact ⟨(PVal.nan, some ("Unsupported metric " ++ m ++ " for " ++
        (ResultRecord.regress g).typeName)), by simp [evaluate, h]⟩
    | some a =>
      cases a with
      | field =>
        exact ⟨(PVal.nan, some ("scoring " ++ m ++ ": " ++ notCallableMsg)),
          by simp [evaluate, h]⟩
      | method out =>
        cases out with
        | ok v => exact ⟨(v, Option.none), by simp [evaluate, h]⟩
        | error e =>
          exact ⟨(PVal.nan, some ("scoring " ++ m ++ ": " ++ e)),
            by simp [evaluate, h]⟩

theorem metricLoop_total (r : ResultRecord) (ms : List String) :
    ∀ scores errs, ∃ out, metricLoop r ms scores errs = .ok out := by
  induction ms with
  | nil => intro s e; exact ⟨(s, e), rfl⟩
  | cons m t ih =>
    intro s e
    obtain ⟨⟨v, err⟩, hv⟩ := evaluate_some_isOk r m
    rw [metricLoop, hv]
    exact ih _ _

/-- **C4** For every result variant and every (string) metric name,
`evaluate` never raises; on the attribute-dispatching variants an
unbound name yields `(NaN, "Unsupported metric <m> for <type>")` and a
raising computation is caught into `(NaN, "scoring <m>: <message>")`;
consequently the metric loop of `compute_scores` scores its whole list
for every variant. -/
theorem c4_evaluate_never_raises (r : ResultRecord) (m : String) :
    (∃ v, evaluate r (some m) = .ok v) ∧
    (r.usesAttrDispatch → r.attrs.lookup m = Option.none →
      evaluate r (some m) =
        .ok (PVal.nan, some ("Unsupported metric " ++ m ++ " for " ++ r.typeName))) ∧
    (∀ e, r.usesAttrDispatch → r.attrs.lookup m = some (Attr.method (.error e)) →
      evaluate r (some m) = .ok (PVal.nan, some ("scoring " ++ m ++ ": " ++ e))) ∧
    (∀ ms scores errs, ∃ out, metricLoop r ms scores errs = .ok out) := by
  refine ⟨evaluate_some_isOk r m, ?_, ?_, fun ms s e => metricLoop_total r ms s e⟩
  · intro hd h
    cases r with
    | noRes i => cases hd
    | errRes i => cases hd
    | classif c => simp [evaluate, h]
    | regress g => simp [evaluate, h]
  · intro e hd h
    cases r with
    | noRes i => cases hd
    | errRes i => cases hd
    | classif c => simp [evaluate, h]
    | regress g => simp [evaluate, h]

/-- Witness for C4: the unsupported and the raising case at a concrete
binary classification result. -/
theorem c4_evaluate_never_raises_witness :
    (ResultRecord.classif exampleClassif).usesAttrDispatch ∧
    (ResultRecord.classif exampleClassif).attrs.lookup "mymetric" = Option.none ∧
    evaluate (ResultRecord.classif exampleClassif) (some "mymetric") =
      .ok (PVal.nan, some ("Unsupported metric mymetric for DatasetType.binary")) ∧
    evaluate (ResultRecord.classif exampleClassif) (some "balacc") =
      .ok (PVal.nan,
        some "scoring balacc: ZeroDivisionError: division by zero") ∧
    ∃ out, metricLoop (ResultRecord.classif exampleClassif)
      ["acc", "balacc"] ⟨[]⟩ [] = .ok out :=
  ⟨trivial, rfl,
   (c4_evaluate_never_raises (ResultRecord.classif exampleClassif) "mymetric").2.1
     trivial rfl,
   (c4_evaluate_never_raises (ResultRecord.classif exampleClassif) "balacc").2.2.1
     "ZeroDivisionError: division by zero" trivial rfl,
   (c4_evaluate_never_raises (ResultRecord.classif exampleClassif) "x").2.2.2
     ["acc", "balacc"] ⟨[]⟩ []⟩

theorem lookup_fieldmap (rest : List (String × Attr)) (names : List String)
    (m : String) (h : m ∈ names) :
    ((names.map (fun n => (n, Attr.field))) ++ rest).lookup m = some Attr.field := by
  induction names with
  | nil => cases h
  | cons n t ih =>
    by_cases hmn : m = n
    · subst hmn
      simp [List.lookup]
    · rcases List.mem_cons.mp h with rfl | h2
      · exact absurd rfl hmn
      · have : (m == n) = false := by
          simp [hmn]
        simp only [List.map, List.cons_append, List.lookup, this]
        exact ih h2

/-- **C10** A metric name that coincides with a plain data attribute of
a `ClassificationResult` or `RegressionResult` (`info`, `truth`,
`predictions`, `df`, `type`, ...) is *not* reported as an unsupported
metric: `evaluate` calls the attribute, catches the `TypeError`, and
returns NaN with a message beginning `scoring <name>:`. -/
theorem c10_field_attr_scoring (c : ClassifData) (g : RegData) (m : String) :
    (m ∈ baseFieldNames ++ ["classes", "probabilities", "labels"] →
      evaluate (ResultRecord.classif c) (some m) =
        .ok (PVal.nan, some ("scoring " ++ m ++ ": " ++ notCallableMsg))) ∧
    (m ∈ baseFieldNames →
      evaluate (ResultRecord.regress g) (some m) =
        .ok (PVal.nan, some ("scoring " ++ m ++ ": " ++ notCallableMsg))) := by
  constructor
  · intro h
    have hl := lookup_fieldmap
      [("acc", Attr.method c.acc), ("balacc", Attr.method c.balacc),
       ("auc", Attr.method c.auc), ("cm", Attr.method c.cm),
       ("mean_pce", Attr.method c.mean_pce), ("max_pce", Attr.method c.max_pce),
       ("f1", Attr.method c.f1), ("logloss", Attr.method c.logloss)]
      (baseFieldNames ++ ["classes", "probabilities", "labels"]) m h
    simp only [evaluate, ResultRecord.attrs, hl]
  · intro h
    have hl := lookup_fieldmap
      [("mae", Attr.method g.mae), ("mse", Attr.method g.mse),
       ("msle", Attr.method g.msle), ("rmse", Attr.method g.rmse),
       ("rmsle", Attr.method g.rmsle), ("r2", Attr.method g.r2)]
      baseFieldNames m h
    simp only [evaluate, ResultRecord.attrs, hl]

/-- Witness for C10: the `truth` and `df` attributes at concrete
results. -/
theorem c10_field_attr_scoring_witness :
    "truth" ∈ baseFieldNames ++ ["classes", "probabilities", "labels"] ∧
    evaluate (ResultRecord.classif exampleClassif) (some "truth") =
      .ok (PVal.nan, some ("scoring truth: " ++ notCallableMsg)) ∧
    "df" ∈ baseFieldNames ∧
    evaluate (ResultRecord.regress
      { info := Option.none, mae := .ok PVal.nan, mse := .ok PVal.nan,
        msle := .ok PVal.nan, rmse := .ok PVal.nan, rmsle := .ok PVal.nan,
        r2 := .ok PVal.nan }) (some "df") =
      .ok (PVal.nan, some ("scoring df: " ++ notCallableMsg)) :=
  ⟨by decide,
   (c10_field_attr_scoring exampleClassif
     { info := Option.none, mae := .ok PVal.nan, mse := .ok PVal.nan,
       msle := .ok PVal.nan, rmse := .ok PVal.nan, rmsle := .ok PVal.nan,
       r2 := .ok PVal.nan } "truth").1 (by decide),
   by decide,
   (c10_field_attr_scoring exampleClassif
     { info := Option.none, mae := .ok PVal.nan, mse := .ok PVal.nan,
       msle := .ok PVal.nan, rmse := .ok PVal.nan, rmsle := .ok PVal.nan,
       r2 := .ok PVal.nan } "df").2 (by decide)⟩

theorem nsLookup_setEntries_self (k : String) (v : PVal) (l : List (String × PVal)) :
    nsLookup k (nsSetEntries k v l) = v := by
  induction l with
  | nil => simp [nsSetEntries, nsLookup]
  | cons kv t ih =>
    obtain ⟨k', v'⟩ := kv
    by_cases h : k' = k
    · subst h; simp [nsSetEntries, nsLookup]
    · simp [nsSetEntries, nsLookup, h, ih]

theorem nsLookup_setEntries_ne (k k' : String) (v : PVal)
    (l : List (String × PVal)) (h : k' ≠ k) :
    nsLookup k' (nsSetEntries k v l) = nsLookup k' l := by
  induction l with
  | nil => simp [nsSetEntries, nsLookup, Ne.symm h]
  | cons kv t ih =>
    obtain ⟨k0, v0⟩ := kv
    by_cases h0 : k0 = k
    · subst h0
      simp [nsSetEntries, nsLookup, Ne.symm h]
    · by_cases h1 : k0 = k'
      · subst h1; simp [nsSetEntries, nsLookup, h0]
      · simp [nsSetEntries, nsLookup, h0, h1, ih]

theorem nsHasKeyL_setEntries (k k' : String) (v : PVal)
    (l : List (String × PVal)) :
    nsHasKeyL k' (nsSetEntries k v l) = (decide (k = k') || nsHasKeyL k' l) := by
  induction l with
  | nil => simp [nsSetEntries, nsHasKeyL]
  | cons kv t ih =>
    obtain ⟨k0, v0⟩ := kv
    by_cases h0 : k0 = k
    · subst h0
      simp [nsSetEntries, nsHasKeyL]
    · simp only [nsSetEntries, if_neg h0, nsHasKeyL, ih]
      cases hd : decide (k0 = k') <;> cases he : decide (k = k') <;> simp_all

theorem NS.get_set_self (ns : NS) (k : String) (v : PVal) :
    (ns.set k v).get k = v :=
  nsLookup_setEntries_self k v ns.entries

theorem NS.get_set_ne (ns : NS) (k k' : String) (v : PVal) (h : k' ≠ k) :
    (ns.set k v).get k' = ns.get k' :=
  nsLookup_setEntries_ne k k' v ns.entries h

theorem NS.hasKey_set (ns : NS) (k k' : String) (v : PVal) :
    (ns.set k v).hasKey k' = (decide (k = k') || ns.hasKey k') :=
  nsHasKeyL_setEntries k k' v ns.entries

theorem nsLookup_append_left (k : String) (l1 l2 : List (String × PVal))
    (h : nsHasKeyL k l1 = true) :
    nsLookup k (l1 ++ l2) = nsLookup k l1 := by
  induction l1 with
  | nil => cases h
  | cons kv t ih =>
    obtain ⟨k0, v0⟩ := kv
    by_cases h0 : k0 = k
    · subst h0; simp [nsLookup]
    · simp only [nsHasKeyL, Bool.or_eq_true, decide_eq_true_eq] at h
      simp only [List.cons_append, nsLookup, if_neg h0]
      exact ih (h.resolve_left h0)

theorem nsHasKeyL_append_left (k : String) (l1 l2 : List (String × PVal))
    (h : nsHasKeyL k l1 = true) :
    nsHasKeyL k (l1 ++ l2) = true := by
  induction l1 with
  | nil => cases h
  | cons kv t ih =>
    obtain ⟨k0, v0⟩ := kv
    simp only [nsHasKeyL, Bool.or_eq_true] at h ⊢
    rcases h with h | h
    · exact Or.inl h
    · exact Or.inr (ih h)

theorem merge_preserves (l : List (String × PVal)) :
    ∀ (ns : NS) (k : String), ns.hasKey k = true →
      (ns.mergeKeepingExisting l).get k = ns.get k ∧
      (ns.mergeKeepingExisting l).hasKey k = true := by
  induction l with
  | nil => intro ns k h; exact ⟨rfl, h⟩
  | cons kv t ih =>
    intro ns k h
    by_cases h0 : ns.hasKey kv.1 = true
    · have hstep : ns.mergeKeepingExisting (kv :: t) = NS.mergeKeepingExisting ns t := by
        simp [NS.mergeKeepingExisting, h0]
      rw [hstep]
      exact ih ns k h
    · have hstep : ns.mergeKeepingExisting (kv :: t) =
          NS.mergeKeepingExisting ⟨ns.entries ++ [kv]⟩ t := by
        simp [NS.mergeKeepingExisting, h0]
      rw [hstep]
      have h1 : (NS.mk (ns.entries ++ [kv])).hasKey k = true :=
        nsHasKeyL_append_left k ns.entries [kv] h
      obtain ⟨hg, hk⟩ := ih ⟨ns.entries ++ [kv]⟩ k h1
      refine ⟨?_, hk⟩
      rw [hg]
      exact nsLookup_append_left k ns.entries [kv] h

theorem metricLoop_noRes_spec (i : Option String) (ms : List String) :
    ∀ (scores : NS) (errs : List String), ∃ out,
      metricLoop (ResultRecord.noRes i) ms scores errs = .ok (out, errs) ∧
      (∀ m, m ∈ ms → out.get m = PVal.nan) ∧
      (∀ k, k ∉ ms → out.get k = scores.get k) ∧
      (∀ k, out.hasKey k = true ↔ (scores.hasKey k = true ∨ k ∈ ms)) := by
  induction ms with
  | nil =>
    intro scores errs
    exact ⟨scores, rfl, by simp, fun k _ => rfl, fun k => by simp⟩
  | cons m t ih =>
    intro scores errs
    obtain ⟨out, hloop, h1, h2, h3⟩ := ih (scores.set m PVal.nan) errs
    refine ⟨out, ?_, ?_, ?_, ?_⟩
    · rw [metricLoop]
      exact hloop
    · intro m' hm'
      rcases List.mem_cons.mp hm' with rfl | hm'
      · by_cases hmt : m' ∈ t
        · exact h1 m' hmt
        · rw [h2 m' hmt, NS.get_set_self]
      · exact h1 m' hm'
    · intro k hk
      have hkm : k ≠ m := fun he => hk (he ▸ List.mem_cons_self _ _)
      have hkt : k ∉ t := fun ht => hk (List.mem_cons_of_mem _ ht)
      rw [h2 k hkt, NS.get_set_ne _ _ _ _ hkm]
    · intro k
      rw [h3 k, NS.hasKey_set]
      simp only [Bool.or_eq_true, decide_eq_true_eq, List.mem_cons]
      constructor
      · rintro ((rfl | h) | h)
        · exact Or.inr (Or.inl rfl)
        · exact Or.inl h
        · exact Or.inr (Or.inr h)
      · rintro (h | (rfl | h))
        · exact Or.inl (Or.inr h)
        · exact Or.inl (Or.inl rfl)
        · exact Or.inr h

/-- **C1** theorem: with the metadata side-file absent (all-unset
metadata namespace) and predictions that parsed into a classification or
regression result, `compute_scores` *raises* - the unset primary metric
reaches `hasattr(self, None)`, a `TypeError` - instead of returning a
record with unset fields and NaN durations. -/
theorem c1_missing_metadata_raises (ctx : TaskCtx) (c : ClassifData) (g : RegData) :
    compute_scores ctx (load_metadata Option.none) Option.none
      (ResultRecord.classif c) = .error hasattrTypeError ∧
    compute_scores ctx (load_metadata Option.none) Option.none
      (ResultRecord.regress g) = .error hasattrTypeError :=
  ⟨rfl, rfl⟩

theorem initialScores_get_metric (ctx : TaskCtx) (metadata mr : NS) :
    (initialScores ctx metadata mr).get "metric" = metadata.get "metric" := rfl

/-- **C5** For every (task, fold) whose predictions file is absent,
scoring yields a record with `result = NaN`,
`info = "Missing predictions."` and NaN for every metric declared in the
run's metric list; absence is not an error. -/
theorem c5_missing_predictions_scores (ctx : TaskCtx) (metadata : NS)
    (meta_result : Option NS) (maxErrLen : ℕ) (pm : String) (ms : List String)
    (h1 : metadata.get "metric" = PVal.str pm)
    (h2 : pm ∈ ms)
    (h3 : "info" ∉ ms)
    (h4 : metadata.get "metrics" = PVal.strList ms) :
    ∃ out,
      compute_scores ctx metadata meta_result
        (load_predictions maxErrLen PredsArtifact.missing) = .ok out ∧
      out.get "result" = PVal.nan ∧
      out.get "info" = PVal.str "Missing predictions." ∧
      ∀ m ∈ ms, out.get m = PVal.nan := by
  have hdecl : declaredMetrics metadata = ms := by
    rw [declaredMetrics, h4]
  have hload : load_predictions maxErrLen PredsArtifact.missing =
      ResultRecord.noRes (some "Missing predictions.") := rfl
  set mr : NS := meta_result.getD ⟨[]⟩ with hmr
  set init : NS := initialScores ctx metadata mr with hinit
  obtain ⟨sc, hloop, hms, hpres, hkey⟩ :=
    metricLoop_noRes_spec (some "Missing predictions.") ms init []
  have hprimary : primaryStep (ResultRecord.noRes (some "Missing predictions."))
      sc [] = .ok (PVal.nan, []) := by
    by_cases hm : "metric" ∈ ms
    · have hsc : sc.get "metric" = PVal.nan := hms _ hm
      simp only [primaryStep, hsc]
      rfl
    · have hsc : sc.get "metric" = PVal.str pm := by
        rw [hpres _ hm, hinit, initialScores_get_metric, h1]
      have hhk : sc.hasKey pm = true := (hkey pm).mpr (Or.inr h2)
      simp only [primaryStep, hsc, hhk, if_pos]
      rw [hms pm h2]
  refine ⟨finishScores (ResultRecord.noRes (some "Missing predictions.")) mr sc
    PVal.nan [], ?_, ?_, ?_, ?_⟩
  · simp only [compute_scores, hload, hdecl, ← hmr, ← hinit, hloop, hprimary]
  · show (((sc.set "result" PVal.nan).set "info"
        (PVal.str "Missing predictions.")).mergeKeepingExisting
          (mr.entries.filter (fun kv => !required_metares.contains kv.1))).get
            "result" = PVal.nan
    have hk : ((sc.set "result" PVal.nan).set "info"
        (PVal.str "Missing predictions.")).hasKey "result" = true := by
      rw [NS.hasKey_set, NS.hasKey_set]
      simp
    rw [(merge_preserves _ _ _ hk).1]
    rw [NS.get_set_ne _ _ _ _ (by decide), NS.get_set_self]
  · show (((sc.set "result" PVal.nan).set "info"
        (PVal.str "Missing predictions.")).mergeKeepingExisting
          (mr.entries.filter (fun kv => !required_metares.contains kv.1))).get
            "info" = PVal.str "Missing predictions."
    have hk : ((sc.set "result" PVal.nan).set "info"
        (PVal.str "Missing predictions.")).hasKey "info" = true := by
      rw [NS.hasKey_set]
      simp
    rw [(merge_preserves _ _ _ hk).1]
    rw [NS.get_set_self]
  · intro m hm
    show (((sc.set "result" PVal.nan).set "info"
        (PVal.str "Missing predictions.")).mergeKeepingExisting
          (mr.entries.filter (fun kv => !required_metares.contains kv.1))).get
            m = PVal.nan
    have hscm : sc.hasKey m = true := (hkey m).mpr (Or.inr hm)
    have hk : ((sc.set "result" PVal.nan).set "info"
        (PVal.str "Missing predictions.")).hasKey m = true := by
      rw [NS.hasKey_set, NS.hasKey_set, hscm]
      simp
    rw [(merge_preserves _ _ _ hk).1]
    by_cases hres2 : m = "result"
    · subst hres2
      rw [NS.get_set_ne _ _ _ _ (by decide), NS.get_set_self]
    · have hinfo2 : m ≠ "info" := fun he => h3 (he ▸ hm)
      rw [NS.get_set_ne _ _ _ _ hinfo2, NS.get_set_ne _ _ _ _ hres2]
      exact hms m hm

/-- Witness for C5: a concrete metadata namespace with declared metrics
`acc, logloss` and primary metric `acc`. -/
theorem c5_missing_predictions_scores_witness :
    exampleMetadata.get "metric" = PVal.str "acc" ∧
    "acc" ∈ ["acc", "logloss"] ∧
    "info" ∉ ["acc", "logloss"] ∧
    exampleMetadata.get "metrics" = PVal.strList ["acc", "logloss"] ∧
    ∃ out,
      compute_scores exampleCtx exampleMetadata Option.none
        (load_predictions 200 PredsArtifact.missing) = .ok out ∧
      out.get "result" = PVal.nan ∧
      out.get "info" = PVal.str "Missing predictions." ∧
      ∀ m ∈ ["acc", "logloss"], out.get m = PVal.nan :=
  ⟨rfl, by decide, by decide, rfl,
   c5_missing_predictions_scores exampleCtx exampleMetadata Option.none 200
     "acc" ["acc", "logloss"] rfl (by decide) (by decide) rfl⟩

/-- **C2** (amended) `Scoreboard.save` rewrites the frame *cached by*
`as_data_frame` in place (no derived copy), so after a save the
in-memory table returned by `as_data_frame` - the one later
append/merge/deduplication operations use - is the formatted frame, not
the pre-save table. -/
theorem c2_save_formats_cached_frame (b : SB) (p : DF)
    (h1 : b.dfCache = Option.none) (h2 : b.printableCache = Option.none)
    (h3 : printableRewrite (as_data_frame b.scores) = .ok p) :
    ∃ b', sbSave b = .ok (p, b') ∧ (sbAsDataFrame b').1 = p := by
  obtain ⟨scores, dfc, pc⟩ := b
  simp only at h1 h2 h3
  subst h1
  subst h2
  refine ⟨⟨scores, some p, some p⟩, ?_, rfl⟩
  simp only [sbSave, sbAsPrintable, sbAsDataFrame, h3]

/-- Counterexample for C2 as stated: on a freshly loaded board the
in-memory table differs after a save (here the `fold` cell turns from
the number 0 into the string "0", among other rewrites). -/
theorem c2_counterexample :
    (match sbSave exampleBoard with
     | .ok (_, b') => some (sbAsDataFrame b').1
     | .error _ => Option.none) ≠ some (sbAsDataFrame exampleBoard).1 := by decide

/-- Witness for C2: the concrete one-row board. -/
theorem c2_save_formats_cached_frame_witness :
    exampleBoard.dfCache = Option.none ∧
    exampleBoard.printableCache = Option.none ∧
    printableRewrite (as_data_frame exampleBoard.scores) = .ok exampleBoardPrintable ∧
    ∃ b', sbSave exampleBoard = .ok (exampleBoardPrintable, b') ∧
      (sbAsDataFrame b').1 = exampleBoardPrintable :=
  ⟨rfl, rfl, rfl,
   c2_save_formats_cached_frame exampleBoard exampleBoardPrintable rfl rfl rfl⟩

/-- **C3** theorem: the folder pattern as compiled (f-string swallows
the `{8}`/`{6}` quantifiers, no `?` on the datetime group) rejects both
a really-timestamped run directory and an untimestamped one, leaving
benchmark/constraint/mode unset, while accepting the absurd datetime
`18T26`; the basename part works as specified. -/
theorem c3_folder_pattern_mismatch :
    predFolderMatch '_' "/H2O_test_1h_local_20190101T010101/x".data = Option.none ∧
    predFolderMatch '_' "/H2O_test_1h_local/x".data = Option.none ∧
    predFolderMatch '_' "/H2O_test_1h_local_18T26/x".data =
      some ⟨"H2O".data, "test".data, "1h".data, "local".data, "18T26".data⟩ ∧
    predBasenameMatch '_' "H2O_iris_0.csv".data =
      some ("H2O".data, "iris".data, 0) ∧
    derivePredIdentity '_' "/H2O_test_1h_local_20190101T010101/x".data
        "H2O_iris_0.csv".data =
      some ⟨"H2O".data, "iris".data, 0, Option.none, Option.none, Option.none,
        Option.none⟩ := by
  decide

/-- Counterexample for C7 as stated: with separator `-`, `_score_file`
writes a literal `task_` infix, and `from_file` then parses the whole
core as a bare framework name instead of recovering the scope. -/
theorem c7_counterexample :
    from_file '-' (score_file_name '-'
        ⟨some "fw".data, Option.none, some "t".data⟩) =
      some ⟨some "fw-task_t".data, Option.none, Option.none⟩ ∧
    from_file '-' (score_file_name '-'
        ⟨some "fw".data, Option.none, some "t".data⟩) ≠
      some ⟨some "fw".data, Option.none, some "t".data⟩ := by decide

theorem usCount_append (a b : Chs) : usCount (a ++ b) = usCount a + usCount b := by
  induction a with
  | nil => simp [usCount]
  | cons c t ih => simp [usCount, ih]; omega

theorem usCount_cons (c : Char) (l : Chs) :
    usCount (c :: l) = (if c = '_' then 1 else 0) + usCount l := rfl

theorem simpleChar_ne_us {c : Char} (h : simpleChar c = true) : c ≠ '_' := by
  intro hc
  subst hc
  exact absurd h (by decide)

theorem noUS_of_all (s : Chs) (hall : s.all simpleChar = true) : usCount s = 0 := by
  induction s with
  | nil => rfl
  | cons c t ih =>
    simp only [List.all_cons, Bool.and_eq_true_iff] at hall
    rw [usCount_cons, if_neg (simpleChar_ne_us hall.1), ih hall.2]

theorem simple_noUS {s : Chs} (h : simpleName s = true) : usCount s = 0 :=
  noUS_of_all s (Bool.and_eq_true_iff.mp h).2

theorem simple_wordTok {s : Chs} (h : simpleName s = true) : wordTok s = true := by
  obtain ⟨hne, hall⟩ := Bool.and_eq_true_iff.mp h
  refine Bool.and_eq_true_iff.mpr ⟨hne, ?_⟩
  rw [List.all_eq_true] at hall ⊢
  intro c hc
  have := hall c hc
  simp only [simpleChar, Bool.or_eq_true] at this
  simp only [wordChar, Bool.or_eq_true]
  tauto

theorem simple_ne_nil {s : Chs} (h : simpleName s = true) : s ≠ [] := by
  obtain ⟨hne, -⟩ := Bool.and_eq_true_iff.mp h
  simpa [List.isEmpty_iff] using hne

theorem us_split_unique (x : Chs) :
    ∀ (x' y y' : Chs), usCount x = 0 → usCount x' = 0 →
      x ++ '_' :: y = x' ++ '_' :: y' → x = x' ∧ y = y' := by
  induction x with
  | nil =>
    intro x' y y' _ hx' h
    cases x' with
    | nil => simpa using h
    | cons c xs =>
      exfalso
      simp only [List.nil_append, List.cons_append, List.cons.injEq] at h
      rw [usCount_cons, ← h.1] at hx'
      simp at hx'
  | cons c xs ih =>
    intro x' y y' hx hx' h
    cases x' with
    | nil =>
      exfalso
      simp only [List.cons_append, List.nil_append, List.cons.injEq] at h
      rw [usCount_cons, h.1] at hx
      simp at hx
    | cons c' xs' =>
      simp only [List.cons_append, List.cons.injEq] at h
      obtain ⟨rfl, h2⟩ := h
      rw [usCount_cons] at hx hx'
      obtain ⟨h3, h4⟩ := ih xs' y y' (by omega) (by omega) h2
      exact ⟨by rw [h3], h4⟩

theorem findSome_unique {α β : Type} [DecidableEq α] (l : List α)
    (f : α → Option β) (x0 : α) (v : β) (hmem : x0 ∈ l) (hx0 : f x0 = some v)
    (hothers : ∀ x ∈ l, x ≠ x0 → f x = none) : l.findSome? f = some v := by
  induction l with
  | nil => cases hmem
  | cons y t ih =>
    by_cases hy : y = x0
    · subst hy
      rw [List.findSome?_cons, hx0]
    · rw [List.findSome?_cons, hothers y (List.mem_cons_self _ _) hy]
      exact ih ((List.mem_cons.mp hmem).resolve_left (fun he => hy he.symm))
        (fun x hx hne => hothers x (List.mem_cons_of_mem _ hx) hne)

theorem findSome_none {α β : Type} (l : List α) (f : α → Option β)
    (h : ∀ x ∈ l, f x = none) : l.findSome? f = none := by
  induction l with
  | nil => rfl
  | cons y t ih =>
    rw [List.findSome?_cons, h y (List.mem_cons_self _ _)]
    exact ih (fun x hx => h x (List.mem_cons_of_mem _ hx))

theorem stripCsv_append (u : Chs) : stripCsv (u ++ dotCsv) = some u := by
  have hlen : (u ++ dotCsv).length = u.length + 4 := by
    simp [dotCsv]
  rw [stripCsv, hlen]
  have h4 : u.length + 4 - 4 = u.length := by omega
  rw [h4]
  have hdrop : (u ++ dotCsv).drop u.length = dotCsv := List.drop_left u dotCsv
  have htake : (u ++ dotCsv).take u.length = u := List.take_left u dotCsv
  rw [hdrop, htake]
  simp

theorem matchResultsFile_spec {s : Chs} (h : matchResultsFile s = true) :
    s.length = 11 ∧ s.take 7 = ['r', 'e', 's', 'u', 'l', 't', 's'] := by
  simp only [matchResultsFile, Bool.and_eq_true_iff, decide_eq_true_eq] at h
  exact ⟨h.1.1, h.1.2⟩

theorem akbStep_some_iff (K core : Chs) (i : ℕ) (A B : Chs) :
    akbStep '_' K core i = some (A, B) ↔
      (core = A ++ '_' :: (K ++ '_' :: B) ∧ i = A.length ∧
        wordTok A = true ∧ wordTok B = true) := by
  constructor
  · intro h
    simp only [akbStep] at h
    by_cases h1 : wordTok (core.take i) = true
    swap
    · rw [if_neg ?_] at h
      · cases h
      · simp [h1]
    by_cases h2 : (core.drop i).take (K.length + 2) = '_' :: (K ++ ['_'])
    swap
    · rw [if_neg ?_] at h
      · cases h
      · simp [h2]
    by_cases h3 : wordTok ((core.drop i).drop (K.length + 2)) = true
    swap
    · rw [if_pos ?_, if_neg h3] at h
      · cases h
      · simp [h1, h2]
    rw [if_pos ?_, if_pos h3] at h
    swap
    · simp [h1, h2]
    obtain ⟨hA, hB⟩ := Prod.mk.injEq .. ▸ Option.some.injEq .. ▸ h
    have hilen : i < core.length := by
      by_contra hle
      push_neg at hle
      have : core.drop i = [] := List.drop_eq_nil_of_le hle
      rw [this] at h2
      simp at h2
    have hAi : A = core.take i := by
      cases h
      rfl
    have hBi : B = (core.drop i).drop (K.length + 2) := by
      cases h
      rfl
    have hcore : core = A ++ '_' :: (K ++ '_' :: B) := by
      conv_lhs => rw [← List.take_append_drop i core]
      rw [← hAi]
      congr 1
      conv_lhs => rw [← List.take_append_drop (K.length + 2) (core.drop i)]
      rw [h2, ← hBi]
      simp
    refine ⟨hcore, ?_, ?_, ?_⟩
    · rw [hAi, List.length_take]
      omega
    · rw [← hAi] at h1
      exact h1
    · rw [← hBi] at h3
      exact h3
  · rintro ⟨rfl, rfl, hA, hB⟩
    have htake : (A ++ '_' :: (K ++ '_' :: B)).take A.length = A := List.take_left A _
    have hdrop : (A ++ '_' :: (K ++ '_' :: B)).drop A.length = '_' :: (K ++ '_' :: B) :=
      List.drop_left A _
    have hshape : ('_' :: (K ++ '_' :: B)) = ('_' :: (K ++ ['_'])) ++ B := by
      simp
    have htake2 : ('_' :: (K ++ '_' :: B)).take (K.length + 2) = '_' :: (K ++ ['_']) := by
      rw [hshape]
      have : ('_' :: (K ++ ['_'])).length = K.length + 2 := by simp
      rw [← this]
      exact List.take_left _ _
    have hdrop2 : ('_' :: (K ++ '_' :: B)).drop (K.length + 2) = B := by
      rw [hshape]
      have : ('_' :: (K ++ ['_'])).length = K.length + 2 := by simp
      rw [← this]
      exact List.drop_left _ _
    simp only [akbStep, htake, hdrop, htake2, hdrop2, hA, hB]
    simp

theorem matchResultsFile_head {s : Chs} (h : matchResultsFile s = true) :
    ∃ r, s = 'r' :: r := by
  obtain ⟨-, htake⟩ := matchResultsFile_spec h
  cases s with
  | nil => simp at htake
  | cons c cs =>
    have hstep : (c :: cs).take 7 = c :: cs.take 6 := rfl
    rw [hstep] at htake
    injection htake with h1 h2
    exact ⟨cs, by rw [h1]⟩

theorem matchAKB_none_of_no_split (K u : Chs)
    (h : ∀ A B : Chs, u ≠ A ++ '_' :: (K ++ '_' :: B)) :
    matchAKB '_' K (u ++ dotCsv) = Option.none := by
  rw [matchAKB, stripCsv_append]
  apply findSome_none
  intro i _
  cases hs : akbStep '_' K u i with
  | none => rfl
  | some p =>
    obtain ⟨A, B⟩ := p
    exact absurd ((akbStep_some_iff K u i A B).mp hs).1 (h A B)

theorem matchAKB_some_of_unique (K u A0 B0 : Chs)
    (hvalid : u = A0 ++ '_' :: (K ++ '_' :: B0))
    (hA0 : wordTok A0 = true) (hB0 : wordTok B0 = true)
    (huni : ∀ A B : Chs, u = A ++ '_' :: (K ++ '_' :: B) →
      wordTok A = true → wordTok B = true → A = A0 ∧ B = B0) :
    matchAKB '_' K (u ++ dotCsv) = some (A0, B0) := by
  rw [matchAKB, stripCsv_append]
  apply findSome_unique _ _ A0.length
  · rw [List.mem_reverse, List.mem_range]
    have : u.length = A0.length + (K.length + B0.length + 2) := by
      rw [hvalid]
      simp
      omega
    omega
  · exact (akbStep_some_iff K u A0.length A0 B0).mpr ⟨hvalid, rfl, hA0, hB0⟩
  · intro i _ hne
    cases hs : akbStep '_' K u i with
    | none => rfl
    | some p =>
      obtain ⟨A, B⟩ := p
      obtain ⟨hu, hi, hA, hB⟩ := (akbStep_some_iff K u i A B).mp hs
      obtain ⟨hAA, -⟩ := huni A B hu hA hB
      exact absurd (by rw [hi, hAA]) hne

theorem matchKB_none_of (K u : Chs) (h : ∀ B : Chs, u ≠ K ++ '_' :: B) :
    matchKB '_' K (u ++ dotCsv) = Option.none := by
  rw [matchKB, stripCsv_append]
  by_cases htk : u.take (K.length + 1) = K ++ ['_']
  · exfalso
    refine h (u.drop (K.length + 1)) ?_
    conv_lhs => rw [← List.take_append_drop (K.length + 1) u]
    rw [htk]
    simp
  · simp [htk]

theorem matchKB_some_of (K B0 : Chs) (hB0 : wordTok B0 = true) :
    matchKB '_' K ((K ++ '_' :: B0) ++ dotCsv) = some B0 := by
  rw [matchKB, stripCsv_append]
  have hshape : K ++ '_' :: B0 = (K ++ ['_']) ++ B0 := by simp
  have hlen : (K ++ ['_']).length = K.length + 1 := by simp
  have htk : (K ++ '_' :: B0).take (K.length + 1) = K ++ ['_'] := by
    rw [hshape, ← hlen]
    exact List.take_left _ _
  have hdp : (K ++ '_' :: B0).drop (K.length + 1) = B0 := by
    rw [hshape, ← hlen]
    exact List.drop_left _ _
  show (if (K ++ '_' :: B0).take (K.length + 1) = K ++ ['_'] then
      (if wordTok ((K ++ '_' :: B0).drop (K.length + 1)) = true then
        some ((K ++ '_' :: B0).drop (K.length + 1)) else Option.none)
    else Option.none) = some B0
  rw [if_pos htk, hdp, if_pos hB0]

theorem matchFw_append (u : Chs) :
    matchFw (u ++ dotCsv) = if wordTok u then some u else Option.none := by
  rw [matchFw, stripCsv_append]

theorem usCount_akb_shape (A K B : Chs) :
    usCount (A ++ '_' :: (K ++ '_' :: B)) =
      usCount A + usCount K + usCount B + 2 := by
  rw [usCount_append, usCount_cons, usCount_append, usCount_cons]
  simp
  omega

theorem usCount_kb_shape (K B : Chs) :
    usCount (K ++ '_' :: B) = usCount K + usCount B + 1 := by
  rw [usCount_append, usCount_cons]
  simp
  omega

theorem c7_case_fw_task (fw t : Chs) (hfw : simpleName fw = true)
    (ht : simpleName t = true) (hfwb : fw ≠ kwBenchmark) :
    from_file '_' (score_file_name '_' ⟨some fw, Option.none, some t⟩) =
      some ⟨some fw, Option.none, some t⟩ := by
  have hshape : score_file_name '_' ⟨some fw, Option.none, some t⟩ =
      (fw ++ '_' :: (kwTask ++ '_' :: t)) ++ dotCsv := by
    simp [score_file_name, List.append_assoc]
  have hcfw := simple_noUS hfw
  have hct := simple_noUS ht
  have hKt : usCount kwTask = 0 := rfl
  have hKb : usCount kwBenchmark = 0 := rfl
  have hcu : usCount (fw ++ '_' :: (kwTask ++ '_' :: t)) = 2 := by
    rw [usCount_akb_shape, hcfw, hct, hKt]
  have hres : matchResultsFile ((fw ++ '_' :: (kwTask ++ '_' :: t)) ++ dotCsv)
      = false := by
    by_contra hcon
    rw [Bool.not_eq_false] at hcon
    obtain ⟨hlen, -⟩ := matchResultsFile_spec hcon
    have h1 : 1 ≤ fw.length := List.length_pos.mpr (simple_ne_nil hfw)
    have h2 : 1 ≤ t.length := List.length_pos.mpr (simple_ne_nil ht)
    simp [dotCsv, kwTask] at hlen
    omega
  have hakbB : matchAKB '_' kwBenchmark
      ((fw ++ '_' :: (kwTask ++ '_' :: t)) ++ dotCsv) = Option.none := by
    apply matchAKB_none_of_no_split
    intro A B heq
    have hcnt := congrArg usCount heq
    rw [hcu, usCount_akb_shape, hKb] at hcnt
    have hcA : usCount A = 0 := by omega
    obtain ⟨-, h2⟩ := us_split_unique fw A (kwTask ++ '_' :: t)
      (kwBenchmark ++ '_' :: B) hcfw hcA heq
    simp [kwTask, kwBenchmark] at h2
  have hkbB : matchKB '_' kwBenchmark
      ((fw ++ '_' :: (kwTask ++ '_' :: t)) ++ dotCsv) = Option.none := by
    apply matchKB_none_of
    intro B heq
    obtain ⟨h1, -⟩ := us_split_unique kwBenchmark fw B (kwTask ++ '_' :: t)
      hKb hcfw heq.symm
    exact hfwb h1.symm
  have hakbT : matchAKB '_' kwTask
      ((fw ++ '_' :: (kwTask ++ '_' :: t)) ++ dotCsv) = some (fw, t) := by
    apply matchAKB_some_of_unique kwTask _ fw t rfl
      (simple_wordTok hfw) (simple_wordTok ht)
    intro A B heq hA hB
    have hcnt := congrArg usCount heq
    rw [hcu, usCount_akb_shape, hKt] at hcnt
    have hcA : usCount A = 0 := by omega
    obtain ⟨h1, h2⟩ := us_split_unique fw A (kwTask ++ '_' :: t)
      (kwTask ++ '_' :: B) hcfw hcA heq
    refine ⟨h1.symm, ?_⟩
    have h3 := List.append_cancel_left h2
    injection h3 with h5 h4
    exact h4.symm
  rw [hshape]
  simp only [from_file, hres, hakbB, hkbB, hakbT]
  simp

theorem c7_case_fw_bench (fw b : Chs) (hfw : simpleName fw = true)
    (hb : simpleName b = true) :
    from_file '_' (score_file_name '_' ⟨some fw, some b, Option.none⟩) =
      some ⟨some fw, some b, Option.none⟩ := by
  have hshape : score_file_name '_' ⟨some fw, some b, Option.none⟩ =
      (fw ++ '_' :: (kwBenchmark ++ '_' :: b)) ++ dotCsv := by
    simp [score_file_name, List.append_assoc]
  have hcfw := simple_noUS hfw
  have hcb := simple_noUS hb
  have hKb : usCount kwBenchmark = 0 := rfl
  have hcu : usCount (fw ++ '_' :: (kwBenchmark ++ '_' :: b)) = 2 := by
    rw [usCount_akb_shape, hcfw, hcb, hKb]
  have hres : matchResultsFile ((fw ++ '_' :: (kwBenchmark ++ '_' :: b)) ++ dotCsv)
      = false := by
    by_contra hcon
    rw [Bool.not_eq_false] at hcon
    obtain ⟨hlen, -⟩ := matchResultsFile_spec hcon
    have h1 : 1 ≤ fw.length := List.length_pos.mpr (simple_ne_nil hfw)
    have h2 : 1 ≤ b.length := List.length_pos.mpr (simple_ne_nil hb)
    simp [dotCsv, kwBenchmark] at hlen
    omega
  have hakbB : matchAKB '_' kwBenchmark
      ((fw ++ '_' :: (kwBenchmark ++ '_' :: b)) ++ dotCsv) = some (fw, b) := by
    apply matchAKB_some_of_unique kwBenchmark _ fw b rfl
      (simple_wordTok hfw) (simple_wordTok hb)
    intro A B heq hA hB
    have hcnt := congrArg usCount heq
    rw [hcu, usCount_akb_shape, hKb] at hcnt
    have hcA : usCount A = 0 := by omega
    obtain ⟨h1, h2⟩ := us_split_unique fw A (kwBenchmark ++ '_' :: b)
      (kwBenchmark ++ '_' :: B) hcfw hcA heq
    refine ⟨h1.symm, ?_⟩
    have h3 := List.append_cancel_left h2
    injection h3 with h5 h4
    exact h4.symm
  rw [hshape]
  simp only [from_file, hres, hakbB]
  simp

theorem c7_case_fw (fw : Chs) (hfw : simpleName fw = true)
    (hfwr : fw ≠ ['r', 'e', 's', 'u', 'l', 't', 's']) :
    from_file '_' (score_file_name '_' ⟨some fw, Option.none, Option.none⟩) =
      some ⟨some fw, Option.none, Option.none⟩ := by
  have hcfw := simple_noUS hfw
  have hres : matchResultsFile (fw ++ dotCsv) = false := by
    by_contra hcon
    rw [Bool.not_eq_false] at hcon
    obtain ⟨hlen, htake⟩ := matchResultsFile_spec hcon
    have h7 : fw.length = 7 := by
      simp [dotCsv] at hlen
      omega
    have htk : (fw ++ dotCsv).take 7 = fw := by
      rw [← h7]
      exact List.take_left _ _
    exact hfwr (htk.symm.trans htake)
  have hakbB : matchAKB '_' kwBenchmark (fw ++ dotCsv) = Option.none := by
    apply matchAKB_none_of_no_split
    intro A B heq
    have hcnt := congrArg usCount heq
    rw [hcfw, usCount_akb_shape] at hcnt
    omega
  have hkbB : matchKB '_' kwBenchmark (fw ++ dotCsv) = Option.none := by
    apply matchKB_none_of
    intro B heq
    have hcnt := congrArg usCount heq
    rw [hcfw, usCount_kb_shape] at hcnt
    omega
  have hakbT : matchAKB '_' kwTask (fw ++ dotCsv) = Option.none := by
    apply matchAKB_none_of_no_split
    intro A B heq
    have hcnt := congrArg usCount heq
    rw [hcfw, usCount_akb_shape] at hcnt
    omega
  have hkbT : matchKB '_' kwTask (fw ++ dotCsv) = Option.none := by
    apply matchKB_none_of
    intro B heq
    have hcnt := congrArg usCount heq
    rw [hcfw, usCount_kb_shape] at hcnt
    omega
  have hmfw : matchFw (fw ++ dotCsv) = some fw := by
    rw [matchFw_append, if_pos (simple_wordTok hfw)]
  have hshape : score_file_name '_' ⟨some fw, Option.none, Option.none⟩ =
      fw ++ dotCsv := rfl
  rw [hshape]
  simp only [from_file, hres, hakbB, hkbB, hakbT, hkbT, hmfw]
  simp

theorem c7_case_task (t : Chs) (ht : simpleName t = true) :
    from_file '_' (score_file_name '_' ⟨Option.none, Option.none, some t⟩) =
      some ⟨Option.none, Option.none, some t⟩ := by
  have hshape : score_file_name '_' ⟨Option.none, Option.none, some t⟩ =
      (kwTask ++ '_' :: t) ++ dotCsv := by
    simp [score_file_name, List.append_assoc]
  have hct := simple_noUS ht
  have hKt : usCount kwTask = 0 := rfl
  have hKb : usCount kwBenchmark = 0 := rfl
  have hcu : usCount (kwTask ++ '_' :: t) = 1 := by
    rw [usCount_kb_shape, hct, hKt]
  have hres : matchResultsFile ((kwTask ++ '_' :: t) ++ dotCsv) = false := by
    by_contra hcon
    rw [Bool.not_eq_false] at hcon
    obtain ⟨r, hr⟩ := matchResultsFile_head hcon
    simp [kwTask] at hr
  have hakbB : matchAKB '_' kwBenchmark ((kwTask ++ '_' :: t) ++ dotCsv) =
      Option.none := by
    apply matchAKB_none_of_no_split
    intro A B heq
    have hcnt := congrArg usCount heq
    rw [hcu, usCount_akb_shape, hKb] at hcnt
    omega
  have hkbB : matchKB '_' kwBenchmark ((kwTask ++ '_' :: t) ++ dotCsv) =
      Option.none := by
    apply matchKB_none_of
    intro B heq
    obtain ⟨h1, -⟩ := us_split_unique kwTask kwBenchmark t B hKt hKb heq
    simp [kwTask, kwBenchmark] at h1
  have hakbT : matchAKB '_' kwTask ((kwTask ++ '_' :: t) ++ dotCsv) =
      Option.none := by
    apply matchAKB_none_of_no_split
    intro A B heq
    have hcnt := congrArg usCount heq
    rw [hcu, usCount_akb_shape, hKt] at hcnt
    omega
  have hkbT : matchKB '_' kwTask ((kwTask ++ '_' :: t) ++ dotCsv) = some t :=
    matchKB_some_of kwTask t (simple_wordTok ht)
  rw [hshape]
  simp only [from_file, hres, hakbB, hkbB, hakbT, hkbT]
  simp

theorem c7_case_bench (b : Chs) (hb : simpleName b = true) :
    from_file '_' (score_file_name '_' ⟨Option.none, some b, Option.none⟩) =
      some ⟨Option.none, some b, Option.none⟩ := by
  have hshape : score_file_name '_' ⟨Option.none, some b, Option.none⟩ =
      (kwBenchmark ++ '_' :: b) ++ dotCsv := by
    simp [score_file_name, List.append_assoc]
  have hcb := simple_noUS hb
  have hKb : usCount kwBenchmark = 0 := rfl
  have hcu : usCount (kwBenchmark ++ '_' :: b) = 1 := by
    rw [usCount_kb_shape, hcb, hKb]
  have hres : matchResultsFile ((kwBenchmark ++ '_' :: b) ++ dotCsv) = false := by
    by_contra hcon
    rw [Bool.not_eq_false] at hcon
    obtain ⟨r, hr⟩ := matchResultsFile_head hcon
    simp [kwBenchmark] at hr
  have hakbB : matchAKB '_' kwBenchmark ((kwBenchmark ++ '_' :: b) ++ dotCsv) =
      Option.none := by
    apply matchAKB_none_of_no_split
    intro A B heq
    have hcnt := congrArg usCount heq
    rw [hcu, usCount_akb_shape, hKb] at hcnt
    omega
  have hkbB : matchKB '_' kwBenchmark ((kwBenchmark ++ '_' :: b) ++ dotCsv) =
      some b :=
    matchKB_some_of kwBenchmark b (simple_wordTok hb)
  rw [hshape]
  simp only [from_file, hres, hakbB, hkbB]
  simp

/-- **C7** (amended) With the separator `_` (for which the literal
`task_`/`benchmark_` infixes written by `_score_file` coincide with the
`{sep}`-parameterised patterns of `from_file`), the backing file name
follows the precedence framework+task > framework+benchmark > framework
> task > benchmark > the global default, and `from_file` recovers the
same scope - provided the scope names are plain (letters, digits,
hyphens), the framework name is not itself `results` or `benchmark`,
and at most one of task/benchmark is set (with both set the file name
encodes only the task).  For any other separator the literal underscore
breaks the round-trip (see the counterexample). -/
theorem c7_scope_roundtrip (fw b t : Option Chs)
    (hfw : ∀ s, fw = some s → simpleName s = true ∧ s ≠ kwBenchmark ∧
      s ≠ ['r', 'e', 's', 'u', 'l', 't', 's'])
    (hb : ∀ s, b = some s → simpleName s = true)
    (ht : ∀ s, t = some s → simpleName s = true)
    (hbt : b = Option.none ∨ t = Option.none) :
    from_file '_' (score_file_name '_' ⟨fw, b, t⟩) = some ⟨fw, b, t⟩ := by
  cases fw with
  | some f =>
    obtain ⟨hf1, hf2, hf3⟩ := hfw f rfl
    cases t with
    | some tt =>
      have hbn : b = Option.none := hbt.resolve_right (by simp)
      subst hbn
      exact c7_case_fw_task f tt hf1 (ht tt rfl) hf2
    | none =>
      cases b with
      | some bb => exact c7_case_fw_bench f bb hf1 (hb bb rfl)
      | none => exact c7_case_fw f hf1 hf3
  | none =>
    cases t with
    | some tt =>
      have hbn : b = Option.none := hbt.resolve_right (by simp)
      subst hbn
      exact c7_case_task tt (ht tt rfl)
    | none =>
      cases b with
      | some bb => exact c7_case_bench bb (hb bb rfl)
      | none => decide

/-- Witness for C7: the framework+task scope `(H2O, iris)`. -/
theorem c7_scope_roundtrip_witness :
    simpleName "H2O".data = true ∧ simpleName "iris".data = true ∧
    from_file '_' (score_file_name '_'
        ⟨some "H2O".data, Option.none, some "iris".data⟩) =
      some ⟨some "H2O".data, Option.none, some "iris".data⟩ :=
  ⟨by decide, by decide,
   c7_scope_roundtrip (some "H2O".data) Option.none (some "iris".data)
     (fun s hs => by cases hs; exact ⟨by decide, by decide, by decide⟩)
     (fun s hs => by cases hs)
     (fun s hs => by cases hs; decide)
     (Or.inl rfl)⟩

end AmlbResults
